import Mathlib

/-!
# Verification of the cbor-go runtime codec

Shallow embedding of the CBOR runtime (`runtime/read_bytes.go`,
`runtime/helpers.go`, `runtime/json_from.go`, `runtime/json_interop.go` and the
slice-based `Reader`) in Lean 4, together with theorems settling the claims
about canonical integer headers, integer round-trips, skip/validate,
canonical floats, deterministic maps, duplicate-key detection, strict-mode
length checks, JSON interop wrapper handling and the container-size limit.

Bytes are modelled as `Nat` (values `0..255` by construction), buffers as
`List Nat`, `uint64` as `Nat` (callers keep values below `2^64`), `int64` as
`Int` (callers keep values in `[-2^63, 2^63)`), and fallible readers return
`Except Err (value × remainder)`; on error the Go functions return the original
slice untouched, which the `Except` model simply drops (the stateful `Reader`
models the cursor explicitly).
-/

-- ===================== Definitions =====================

/-- Error kinds of the runtime (`runtime/errors.go`), collapsed to the
information the claims need. `outOfFuel` is a Lean-only termination artifact
of the fuel-indexed recursive functions: each loop step or nested call
consumes at least one input byte or emits one item, so the fuel the
top-level wrappers pass (linear in the input length) cannot run out on the
inputs the theorems evaluate. -/
inductive Err where
  | shortBytes
  | badPrefix (got want : Nat)
  | intOverflow
  | uintOverflow
  | typeErr
  | unsupportedType
  | maxDepth
  | invalidUTF8
  | duplicateMapKey
  | nonCanonicalLength
  | nonCanonicalFloat
  | indefiniteForbidden
  | containerTooLarge
  | invalidAddInfo
  | arrayErr (wanted got : Nat)
  | other (msg : String)
  | outOfFuel
deriving Repr, DecidableEq

/-- CBOR major types (3 bits), from `runtime/defs.go`. -/
def majorTypeUint : Nat := 0

def majorTypeNegInt : Nat := 1

def majorTypeBytes : Nat := 2

def majorTypeText : Nat := 3

def majorTypeArray : Nat := 4

def majorTypeMap : Nat := 5

def majorTypeTag : Nat := 6

def majorTypeSimple : Nat := 7

/-- Additional info values (5 bits), from `runtime/defs.go`. -/
def addInfoDirect : Nat := 23

def addInfoUint8 : Nat := 24

def addInfoUint16 : Nat := 25

def addInfoUint32 : Nat := 26

def addInfoUint64 : Nat := 27

def addInfoIndefinite : Nat := 31

/-- Simple values in major type 7, from `runtime/defs.go`. -/
def simpleFalse : Nat := 20

def simpleTrue : Nat := 21

def simpleNull : Nat := 22

def simpleUndefined : Nat := 23

def simpleFloat16 : Nat := 25

def simpleFloat32 : Nat := 26

def simpleFloat64 : Nat := 27

def simpleBreak : Nat := 31

/-- `recursionLimit` from `runtime/defs.go`. -/
def recursionLimit : Nat := 100000

/-- `makeByte` creates a CBOR initial byte: `(majorType << 5) | addInfo`. -/
def makeByte (majorType addInfo : Nat) : Nat := (majorType <<< 5) ||| addInfo

/-- `getMajorType` extracts the major type: `(b >> 5) & 0x07`. -/
def getMajorType (b : Nat) : Nat := (b >>> 5) &&& 0x07

/-- `getAddInfo` extracts the additional info: `b & 0x1f`. -/
def getAddInfo (b : Nat) : Nat := b &&& 0x1f

/-- Big-endian byte list of `u` in `n` bytes (`binary.BigEndian.PutUintNN`). -/
def bePut : Nat → Nat → List Nat
  | 0, _ => []
  | n + 1, u => bePut n (u / 256) ++ [u % 256]

/-- Big-endian read of a whole byte list (`binary.BigEndian.UintNN` reads the
first `n` bytes; callers pass `l.take n` after a length check). -/
def beUint (l : List Nat) : Nat := l.foldl (fun acc b => acc * 256 + b) 0

/-- `appendUintCore` encodes an unsigned integer with the given major type
(`runtime/read_bytes.go`).  The `ensure`/write sequence of the source appends
exactly the header bytes shown here. -/
def appendUintCore (b : List Nat) (majorType : Nat) (u : Nat) : List Nat :=
  if u ≤ addInfoDirect then b ++ [makeByte majorType u]
  else if u ≤ 0xff then b ++ [makeByte majorType addInfoUint8] ++ bePut 1 u
  else if u ≤ 0xffff then b ++ [makeByte majorType addInfoUint16] ++ bePut 2 u
  else if u ≤ 0xffffffff then b ++ [makeByte majorType addInfoUint32] ++ bePut 4 u
  else b ++ [makeByte majorType addInfoUint64] ++ bePut 8 u

/-- `AppendInt64` appends an `int64` using canonical CBOR integer encoding
(`runtime/read_bytes.go`).  `uint64(neg)` and `uint64(i)` are `Int.toNat`
(both are non-negative at those points). -/
def AppendInt64 (b : List Nat) (i : Int) : List Nat :=
  if 0 ≤ i ∧ i ≤ 23 then b ++ [makeByte majorTypeUint i.toNat]
  else if i < 0 then
    if 0 ≤ (-1 - i) ∧ (-1 - i) ≤ 23 then b ++ [makeByte majorTypeNegInt (-1 - i).toNat]
    else appendUintCore b majorTypeNegInt (-1 - i).toNat
  else appendUintCore b majorTypeUint i.toNat

/-- `ReadInt64Bytes` reads an `int64` (`runtime/read_bytes.go`), mirroring the
direct byte-pattern fast paths of the source. -/
def ReadInt64Bytes (b : List Nat) : Except Err (Int × List Nat) :=
  match b with
  | [] => .error .shortBytes
  | lead :: rest =>
    if lead ≤ 0x17 then .ok ((lead : Int), rest)
    else if lead = 0x18 then
      match rest with
      | [] => .error .shortBytes
      | x :: r => .ok ((x : Int), r)
    else if lead = 0x19 then
      if rest.length < 2 then .error .shortBytes
      else .ok ((beUint (rest.take 2) : Int), rest.drop 2)
    else if lead = 0x1a then
      if rest.length < 4 then .error .shortBytes
      else .ok ((beUint (rest.take 4) : Int), rest.drop 4)
    else if lead = 0x1b then
      if rest.length < 8 then .error .shortBytes
      else
        let u := beUint (rest.take 8)
        if u > 2 ^ 63 - 1 then .error .intOverflow
        else .ok ((u : Int), rest.drop 8)
    else if 0x20 ≤ lead ∧ lead ≤ 0x37 then .ok (-1 - ((lead - 0x20 : Nat) : Int), rest)
    else if lead = 0x38 then
      match rest with
      | [] => .error .shortBytes
      | x :: r => .ok (-1 - (x : Int), r)
    else if lead = 0x39 then
      if rest.length < 2 then .error .shortBytes
      else .ok (-1 - (beUint (rest.take 2) : Int), rest.drop 2)
    else if lead = 0x3a then
      if rest.length < 4 then .error .shortBytes
      else .ok (-1 - (beUint (rest.take 4) : Int), rest.drop 4)
    else if lead = 0x3b then
      if rest.length < 8 then .error .shortBytes
      else
        let u := beUint (rest.take 8)
        if u > 2 ^ 63 - 1 then .error .intOverflow
        else .ok (-1 - (u : Int), rest.drop 8)
    else .error (.badPrefix ((lead >>> 5) &&& 0x07) majorTypeUint)

/-- Canonical CBOR argument width (header byte count) for an unsigned value,
as the spec states it: `u≤23` in 1 byte, `≤255` in 2, `≤65535` in 3,
`≤2^32−1` in 5, else 9. -/
def canonicalHeaderWidth (u : Nat) : Nat :=
  if u ≤ 23 then 1 else if u ≤ 255 then 2 else if u ≤ 65535 then 3
  else if u ≤ 2 ^ 32 - 1 then 5 else 9


/-- `readUintCore` reads a uint under an expected major type
(`runtime/read_bytes.go`). -/
def readUintCore (b : List Nat) (expectedMajor : Nat) : Except Err (Nat × List Nat) :=
  match b with
  | [] => .error .shortBytes
  | lead :: rest =>
    if getMajorType lead ≠ expectedMajor then .error (.badPrefix (getMajorType lead) expectedMajor)
    else
      let addInfo := getAddInfo lead
      if addInfo ≤ addInfoDirect then .ok (addInfo, rest)
      else if addInfo = addInfoUint8 then
        match rest with
        | [] => .error .shortBytes
        | x :: r => .ok (x, r)
      else if addInfo = addInfoUint16 then
        if rest.length < 2 then .error .shortBytes else .ok (beUint (rest.take 2), rest.drop 2)
      else if addInfo = addInfoUint32 then
        if rest.length < 4 then .error .shortBytes else .ok (beUint (rest.take 4), rest.drop 4)
      else if addInfo = addInfoUint64 then
        if rest.length < 8 then .error .shortBytes else .ok (beUint (rest.take 8), rest.drop 8)
      else .error .unsupportedType

/-- `ReadMapHeaderBytes` (`runtime/read_bytes.go`): fast paths on the lead
byte for major type 5, with a uint32 overflow check on the 8-byte form. -/
def ReadMapHeaderBytes (b : List Nat) : Except Err (Nat × List Nat) :=
  match b with
  | [] => .error .shortBytes
  | lead :: rest =>
    if 0xa0 ≤ lead ∧ lead ≤ 0xb7 then .ok (lead - 0xa0, rest)
    else if lead = 0xb8 then
      match rest with
      | [] => .error .shortBytes
      | x :: r => .ok (x, r)
    else if lead = 0xb9 then
      if rest.length < 2 then .error .shortBytes else .ok (beUint (rest.take 2), rest.drop 2)
    else if lead = 0xba then
      if rest.length < 4 then .error .shortBytes else .ok (beUint (rest.take 4), rest.drop 4)
    else if lead = 0xbb then
      if rest.length < 8 then .error .shortBytes
      else
        let u := beUint (rest.take 8)
        if u > 2 ^ 32 - 1 then .error .uintOverflow else .ok (u, rest.drop 8)
    else .error (.badPrefix (getMajorType lead) majorTypeMap)

/-- `ReadArrayHeaderBytes` (`runtime/read_bytes.go`): fast paths on the lead
byte for major type 4, with a uint32 overflow check on the 8-byte form. -/
def ReadArrayHeaderBytes (b : List Nat) : Except Err (Nat × List Nat) :=
  match b with
  | [] => .error .shortBytes
  | lead :: rest =>
    if 0x80 ≤ lead ∧ lead ≤ 0x97 then .ok (lead - 0x80, rest)
    else if lead = 0x98 then
      match rest with
      | [] => .error .shortBytes
      | x :: r => .ok (x, r)
    else if lead = 0x99 then
      if rest.length < 2 then .error .shortBytes else .ok (beUint (rest.take 2), rest.drop 2)
    else if lead = 0x9a then
      if rest.length < 4 then .error .shortBytes else .ok (beUint (rest.take 4), rest.drop 4)
    else if lead = 0x9b then
      if rest.length < 8 then .error .shortBytes
      else
        let u := beUint (rest.take 8)
        if u > 2 ^ 32 - 1 then .error .uintOverflow else .ok (u, rest.drop 8)
    else .error (.badPrefix (getMajorType lead) majorTypeArray)

/-- `ReadStringZC` reads a text string zero-copy (`runtime/read_bytes.go`);
the returned view and remainder are sublists of the input. -/
def ReadStringZC (b : List Nat) : Except Err (List Nat × List Nat) :=
  match b with
  | [] => .error .shortBytes
  | lead :: rest =>
    if 0x60 ≤ lead ∧ lead ≤ 0x77 then
      let sz := lead &&& 0x1f
      if b.length < 1 + sz then .error .shortBytes
      else .ok (rest.take sz, rest.drop sz)
    else
      let szStart : Except Err (Nat × Nat) :=
        if lead = 0x78 then
          if rest.length < 1 then .error .shortBytes else .ok (rest.headD 0, 2)
        else if lead = 0x79 then
          if rest.length < 2 then .error .shortBytes else .ok (beUint (rest.take 2), 3)
        else if lead = 0x7a then
          if rest.length < 4 then .error .shortBytes else .ok (beUint (rest.take 4), 5)
        else if lead = 0x7b then
          if rest.length < 8 then .error .shortBytes
          else
            let u := beUint (rest.take 8)
            if u > 2 ^ 63 - 1 then .error .uintOverflow else .ok (u, 9)
        else .error (.badPrefix (getMajorType lead) majorTypeText)
      match szStart with
      | .error e => .error e
      | .ok (sz, start) =>
        if start > b.length then .error .shortBytes
        else if sz > b.length - start then .error .shortBytes
        else .ok ((b.drop start).take sz, b.drop (start + sz))

/-- Go `unicode/utf8.Valid`, modelled from its documented acceptance: UTF-8
sequences of 1-4 bytes, rejecting overlong forms, surrogates and code points
above U+10FFFF (stdlib behaviour used by `runtime/utf8_validate.go`). -/
def isUTF8Valid : List Nat → Bool
  | [] => true
  | b0 :: r0 =>
    if b0 < 0x80 then isUTF8Valid r0
    else if 0xc2 ≤ b0 ∧ b0 ≤ 0xdf then
      match r0 with
      | b1 :: r1 => decide (0x80 ≤ b1 ∧ b1 ≤ 0xbf) && isUTF8Valid r1
      | _ => false
    else if 0xe0 ≤ b0 ∧ b0 ≤ 0xef then
      match r0 with
      | b1 :: b2 :: r2 =>
        let lo1 := if b0 = 0xe0 then 0xa0 else 0x80
        let hi1 := if b0 = 0xed then 0x9f else 0xbf
        decide (lo1 ≤ b1 ∧ b1 ≤ hi1) && decide (0x80 ≤ b2 ∧ b2 ≤ 0xbf) && isUTF8Valid r2
      | _ => false
    else if 0xf0 ≤ b0 ∧ b0 ≤ 0xf4 then
      match r0 with
      | b1 :: b2 :: b3 :: r3 =>
        let lo1 := if b0 = 0xf0 then 0x90 else 0x80
        let hi1 := if b0 = 0xf4 then 0x8f else 0xbf
        decide (lo1 ≤ b1 ∧ b1 ≤ hi1) && decide (0x80 ≤ b2 ∧ b2 ≤ 0xbf) &&
          decide (0x80 ≤ b3 ∧ b3 ≤ 0xbf) && isUTF8Valid r3
      | _ => false
    else false

/-- `ValidateUTF8OnDecode` (`runtime/defs.go`): process-wide flag, default on. -/
def ValidateUTF8OnDecode : Bool := true

/-- One definite text-string chunk step inside an indefinite string
(`ReadStringBytes` loop in `runtime/read_bytes.go`); fuel only bounds the
Lean recursion. -/
def readStringChunksF : Nat → List Nat → List Nat → Except Err (List Nat × List Nat)
  | 0, _, _ => .error .outOfFuel
  | fuel + 1, out, p =>
    match p with
    | [] => .error .shortBytes
    | c :: r =>
      if c = makeByte majorTypeSimple simpleBreak then
        if ValidateUTF8OnDecode ∧ ¬ (isUTF8Valid out) then .error .invalidUTF8
        else .ok (out, r)
      else
        match ReadStringZC (c :: r) with
        | .error e => .error e
        | .ok (chunk, q) => readStringChunksF fuel (out ++ chunk) q

/-- `ReadStringBytes` (`runtime/read_bytes.go`): indefinite strings
concatenate chunks until break; definite strings go through `ReadStringZC`
plus the UTF-8 check. Strings are byte lists (Go strings are byte sequences);
`UnsafeStringDecode` only affects aliasing, not the value. -/
def ReadStringBytes (b : List Nat) : Except Err (List Nat × List Nat) :=
  match b with
  | [] => .error .shortBytes
  | lead :: rest =>
    if lead = makeByte majorTypeText addInfoIndefinite then
      readStringChunksF (rest.length + 1) [] rest
    else
      match ReadStringZC (lead :: rest) with
      | .error e => .error e
      | .ok (v, o) =>
        if ValidateUTF8OnDecode ∧ ¬ (isUTF8Valid v) then .error .invalidUTF8
        else .ok (v, o)

/-- Chunk loop of `ReadBytesBytes` for indefinite byte strings
(`runtime/read_bytes.go`); fuel only bounds the Lean recursion. -/
def readBytesChunksF : Nat → List Nat → List Nat → Except Err (List Nat × List Nat)
  | 0, _, _ => .error .outOfFuel
  | fuel + 1, out, p =>
    match p with
    | [] => .error .shortBytes
    | c :: r =>
      if c = makeByte majorTypeSimple simpleBreak then .ok (out, r)
      else
        match readUintCore (c :: r) majorTypeBytes with
        | .error e => .error e
        | .ok (sz, q) =>
          if q.length < sz then .error .shortBytes
          else readBytesChunksF fuel (out ++ q.take sz) (q.drop sz)

/-- `ReadBytesBytes` (`runtime/read_bytes.go`). `scratch[:0]` is the empty
list in this model. -/
def ReadBytesBytes (b : List Nat) (scratch : List Nat) : Except Err (List Nat × List Nat) :=
  match b with
  | [] => .error .shortBytes
  | lead :: rest =>
    if lead = makeByte majorTypeBytes addInfoIndefinite then
      readBytesChunksF (rest.length + 1) (scratch.take 0) rest
    else if 0x40 ≤ lead ∧ lead ≤ 0x57 then
      let sz := lead &&& 0x1f
      if b.length < 1 + sz then .error .shortBytes
      else if sz = 0 then .ok (scratch.take 0, rest)
      else .ok (rest.take sz, rest.drop sz)
    else if lead = 0x58 then
      match rest with
      | [] => .error .shortBytes
      | szb :: r =>
        if r.length < szb then .error .shortBytes
        else if szb = 0 then .ok (scratch.take 0, r)
        else .ok (r.take szb, r.drop szb)
    else if lead = 0x59 then
      if rest.length < 2 then .error .shortBytes
      else
        let sz := beUint (rest.take 2)
        if b.length < 3 + sz then .error .shortBytes
        else if sz = 0 then .ok (scratch.take 0, rest.drop 2)
        else .ok ((rest.drop 2).take sz, (rest.drop 2).drop sz)
    else if lead = 0x5a then
      if rest.length < 4 then .error .shortBytes
      else
        let sz := beUint (rest.take 4)
        if b.length < 5 + sz then .error .shortBytes
        else if sz = 0 then .ok (scratch.take 0, rest.drop 4)
        else .ok ((rest.drop 4).take sz, (rest.drop 4).drop sz)
    else if lead = 0x5b then
      if rest.length < 8 then .error .shortBytes
      else
        let u := beUint (rest.take 8)
        if u > 2 ^ 63 - 1 then .error .uintOverflow
        else if b.length < 9 + u then .error .shortBytes
        else if u = 0 then .ok (scratch.take 0, rest.drop 8)
        else .ok ((rest.drop 8).take u, (rest.drop 8).drop u)
    else
      match readUintCore (lead :: rest) majorTypeBytes with
      | .error e => .error e
      | .ok (sz, o) =>
        if o.length < sz then .error .shortBytes
        else if sz = 0 then .ok (scratch.take 0, o)
        else .ok (o.take sz, o.drop sz)

/-- `AppendBytes` (`runtime/read_bytes.go`): the inlined header switch writes
exactly the `appendUintCore` header for the length, then the payload. -/
def AppendBytes (b : List Nat) (data : List Nat) : List Nat :=
  appendUintCore b majorTypeBytes data.length ++ data

/-- `AppendString` (`runtime/read_bytes.go`): the inlined header switch writes
exactly the `appendUintCore` header for the length, then the payload. -/
def AppendString (b : List Nat) (s : List Nat) : List Nat :=
  appendUintCore b majorTypeText s.length ++ s

/-- The slice-based stateful `Reader` (unnamed part_013). -/
structure Reader where
  buf : List Nat
  strict : Bool
  deterministic : Bool
  maxContainer : Nat
deriving Repr, DecidableEq

/-- `isNonCanonicalLength` (unnamed part_013): reports whether the leading
header uses a non-minimal integer encoding for its argument. -/
def isNonCanonicalLength (b : List Nat) (expectedMajor : Nat) : Except Err Bool :=
  match b with
  | [] => .error .shortBytes
  | lead :: rest =>
    if getMajorType lead ≠ expectedMajor then .error (.badPrefix (getMajorType lead) expectedMajor)
    else
      let add := getAddInfo lead
      if 28 ≤ add ∧ add ≤ 30 then .error .invalidAddInfo
      else if add = addInfoIndefinite then .ok false
      else if add ≤ 23 then .ok false
      else if add = addInfoUint8 then
        match rest with
        | [] => .error .shortBytes
        | x :: _ => .ok (decide (x ≤ 23))
      else if add = addInfoUint16 then
        if rest.length < 2 then .error .shortBytes else .ok (decide (beUint (rest.take 2) ≤ 0xff))
      else if add = addInfoUint32 then
        if rest.length < 4 then .error .shortBytes else .ok (decide (beUint (rest.take 4) ≤ 0xffff))
      else if add = addInfoUint64 then
        if rest.length < 8 then .error .shortBytes
        else .ok (decide (beUint (rest.take 8) ≤ 0xffffffff))
      else .error .unsupportedType

/-- Strict-mode pre-check shared by the `Reader` methods: in strict mode the
leading length header must be canonical (unnamed part_013). -/
def Reader.strictLengthCheck (r : Reader) (expectedMajor : Nat) : Except Err Unit :=
  if r.strict then
    match isNonCanonicalLength r.buf expectedMajor with
    | .error e => .error e
    | .ok nonCanon => if nonCanon then .error .nonCanonicalLength else .ok ()
  else .ok ()

/-- `Reader.ReadArrayHeader` (unnamed part_013). The cursor (`buf`) advances
only on success; the error case returns the receiver unchanged. -/
def Reader.ReadArrayHeader (r : Reader) : Except Err Nat × Reader :=
  if r.buf.length < 1 then (.error .shortBytes, r)
  else
    match r.strictLengthCheck majorTypeArray with
    | .error e => (.error e, r)
    | .ok _ =>
      match ReadArrayHeaderBytes r.buf with
      | .error e => (.error e, r)
      | .ok (sz, rest) =>
        if r.maxContainer > 0 ∧ sz > r.maxContainer then (.error .containerTooLarge, r)
        else (.ok sz, { r with buf := rest })

/-- `Reader.ReadMapHeader` (unnamed part_013). -/
def Reader.ReadMapHeader (r : Reader) : Except Err Nat × Reader :=
  if r.buf.length < 1 then (.error .shortBytes, r)
  else
    match r.strictLengthCheck majorTypeMap with
    | .error e => (.error e, r)
    | .ok _ =>
      match ReadMapHeaderBytes r.buf with
      | .error e => (.error e, r)
      | .ok (sz, rest) =>
        if r.maxContainer > 0 ∧ sz > r.maxContainer then (.error .containerTooLarge, r)
        else (.ok sz, { r with buf := rest })

/-- `Reader.ReadInt64` (unnamed part_013): strict mode enforces canonical
integer encodings for major types 0 and 1. -/
def Reader.ReadInt64 (r : Reader) : Except Err Int × Reader :=
  match r.buf with
  | [] => (.error .shortBytes, r)
  | lead :: _ =>
    let maj := getMajorType lead
    let strictCheck : Except Err Unit :=
      if r.strict ∧ (maj = majorTypeUint ∨ maj = majorTypeNegInt) then
        match isNonCanonicalLength r.buf maj with
        | .error e => .error e
        | .ok nonCanon => if nonCanon then .error .nonCanonicalLength else .ok ()
      else .ok ()
    match strictCheck with
    | .error e => (.error e, r)
    | .ok _ =>
      match ReadInt64Bytes r.buf with
      | .error e => (.error e, r)
      | .ok (v, rest) => (.ok v, { r with buf := rest })

/-- `Reader.ReadString` (unnamed part_013): strict canonical-length check,
deterministic-mode indefinite rejection, then `ReadStringBytes`.  No
`maxContainer` check appears in the source. -/
def Reader.ReadString (r : Reader) : Except Err (List Nat) × Reader :=
  if r.buf.length < 1 then (.error .shortBytes, r)
  else
    match r.strictLengthCheck majorTypeText with
    | .error e => (.error e, r)
    | .ok _ =>
      if r.deterministic ∧ getMajorType (r.buf.headD 0) = majorTypeText ∧
          getAddInfo (r.buf.headD 0) = addInfoIndefinite then
        (.error .indefiniteForbidden, r)
      else
        match ReadStringBytes r.buf with
        | .error e => (.error e, r)
        | .ok (s, rest) => (.ok s, { r with buf := rest })

/-- `Reader.ReadBytes` (unnamed part_013): strict canonical-length check,
deterministic-mode indefinite rejection, then `ReadBytesBytes` with a nil
scratch.  No `maxContainer` check appears in the source. -/
def Reader.ReadBytes (r : Reader) : Except Err (List Nat) × Reader :=
  if r.buf.length < 1 then (.error .shortBytes, r)
  else
    match r.strictLengthCheck majorTypeBytes with
    | .error e => (.error e, r)
    | .ok _ =>
      if r.deterministic ∧ getMajorType (r.buf.headD 0) = majorTypeBytes ∧
          getAddInfo (r.buf.headD 0) = addInfoIndefinite then
        (.error .indefiniteForbidden, r)
      else
        match ReadBytesBytes r.buf [] with
        | .error e => (.error e, r)
        | .ok (v, rest) => (.ok v, { r with buf := rest })


mutual

/-- `skip` (`runtime/read_bytes.go`) walks one item structurally.  The Go
`depth` parameter and `recursionLimit` check are kept as in the source; the
leading `Nat` is Lean-only fuel (one unit per loop step / nested call), and
the top-level wrapper passes `2 * length + 1` units, enough for every input
the theorems evaluate. -/
def skipF : Nat → Nat → List Nat → Except Err (List Nat)
  | 0, _, _ => .error .outOfFuel
  | fuel + 1, depth, b =>
    if depth > recursionLimit then .error .maxDepth
    else match b with
    | [] => .error .shortBytes
    | lead :: rest =>
      let major := getMajorType lead
      let addInfo := getAddInfo lead
      if major = majorTypeUint ∨ major = majorTypeNegInt ∨ major = majorTypeTag then
        match readUintCore (lead :: rest) major with
        | .error e => .error e
        | .ok (_, o) =>
          if major = majorTypeTag then skipF fuel (depth + 1) o else .ok o
      else if major = majorTypeBytes ∨ major = majorTypeText then
        if addInfo = addInfoIndefinite then skipChunksF fuel major rest
        else
          match readUintCore (lead :: rest) major with
          | .error e => .error e
          | .ok (sz, o) => if o.length < sz then .error .shortBytes else .ok (o.drop sz)
      else if major = majorTypeArray then
        if addInfo = addInfoIndefinite then skipItemsIndefF fuel depth rest
        else
          match readUintCore (lead :: rest) major with
          | .error e => .error e
          | .ok (sz, o) => skipItemsF fuel depth sz o
      else if major = majorTypeMap then
        if addInfo = addInfoIndefinite then skipPairsIndefF fuel depth rest
        else
          match readUintCore (lead :: rest) major with
          | .error e => .error e
          | .ok (sz, o) => skipPairsF fuel depth sz o
      else if major = majorTypeSimple then
        if addInfo = simpleFalse ∨ addInfo = simpleTrue ∨ addInfo = simpleNull ∨
            addInfo = simpleUndefined then .ok rest
        else if addInfo = simpleFloat16 then
          if b.length < 3 then .error .shortBytes else .ok (b.drop 3)
        else if addInfo = simpleFloat32 then
          if b.length < 5 then .error .shortBytes else .ok (b.drop 5)
        else if addInfo = simpleFloat64 then
          if b.length < 9 then .error .shortBytes else .ok (b.drop 9)
        else if addInfo < 20 then .ok rest
        else .error .unsupportedType
      else .error .unsupportedType

def skipChunksF : Nat → Nat → List Nat → Except Err (List Nat)
  | 0, _, _ => .error .outOfFuel
  | fuel + 1, major, p =>
    match p with
    | [] => .error .shortBytes
    | c :: r =>
      if c = makeByte majorTypeSimple simpleBreak then .ok r
      else
        match readUintCore (c :: r) major with
        | .error e => .error e
        | .ok (sz, q) =>
          if q.length < sz then .error .shortBytes
          else skipChunksF fuel major (q.drop sz)

def skipItemsIndefF : Nat → Nat → List Nat → Except Err (List Nat)
  | 0, _, _ => .error .outOfFuel
  | fuel + 1, depth, p =>
    match p with
    | [] => .error .shortBytes
    | c :: r =>
      if c = makeByte majorTypeSimple simpleBreak then .ok r
      else
        match skipF fuel (depth + 1) (c :: r) with
        | .error e => .error e
        | .ok o => skipItemsIndefF fuel depth o

def skipItemsF : Nat → Nat → Nat → List Nat → Except Err (List Nat)
  | 0, _, _, _ => .error .outOfFuel
  | _ + 1, _, 0, o => .ok o
  | fuel + 1, depth, sz + 1, o =>
    match skipF fuel (depth + 1) o with
    | .error e => .error e
    | .ok o2 => skipItemsF fuel depth sz o2

def skipPairsIndefF : Nat → Nat → List Nat → Except Err (List Nat)
  | 0, _, _ => .error .outOfFuel
  | fuel + 1, depth, p =>
    match p with
    | [] => .error .shortBytes
    | c :: r =>
      if c = makeByte majorTypeSimple simpleBreak then .ok r
      else
        match skipF fuel (depth + 1) (c :: r) with
        | .error e => .error e
        | .ok o =>
          match skipF fuel (depth + 1) o with
          | .error e => .error e
          | .ok o2 => skipPairsIndefF fuel depth o2

def skipPairsF : Nat → Nat → Nat → List Nat → Except Err (List Nat)
  | 0, _, _, _ => .error .outOfFuel
  | _ + 1, _, 0, o => .ok o
  | fuel + 1, depth, sz + 1, o =>
    match skipF fuel (depth + 1) o with
    | .error e => .error e
    | .ok o2 =>
      match skipF fuel (depth + 1) o2 with
      | .error e => .error e
      | .ok o3 => skipPairsF fuel depth sz o3

end

/-- `Skip` (`runtime/read_bytes.go`): `skip(b, 0)` with sufficient fuel. -/
def Skip (b : List Nat) : Except Err (List Nat) := skipF (2 * b.length + 1) 0 b


mutual

/-- `validateWellFormed` (`runtime/helpers.go`): RFC 8949 well-formedness,
i.e. structural walk plus reserved additional-info rejection, UTF-8 checks on
text, and the two-byte simple-value form.  Go `depth`/`recursionLimit` kept;
the leading `Nat` is Lean-only fuel. -/
def validateWellFormedF : Nat → Nat → List Nat → Except Err (List Nat)
  | 0, _, _ => .error .outOfFuel
  | fuel + 1, depth, b =>
    if depth > recursionLimit then .error .maxDepth
    else match b with
    | [] => .error .shortBytes
    | lead :: rest =>
      let major := getMajorType lead
      let add := getAddInfo lead
      if add = 28 ∨ add = 29 ∨ add = 30 then .error (.badPrefix major major)
      else if major = majorTypeUint ∨ major = majorTypeNegInt ∨ major = majorTypeTag then
        match readUintCore (lead :: rest) major with
        | .error e => .error e
        | .ok (_, o) =>
          if major = majorTypeTag then validateWellFormedF fuel (depth + 1) o else .ok o
      else if major = majorTypeBytes then
        if add = addInfoIndefinite then validateBytesChunksF fuel rest
        else
          match readUintCore (lead :: rest) majorTypeBytes with
          | .error e => .error e
          | .ok (sz, o) => if o.length < sz then .error .shortBytes else .ok (o.drop sz)
      else if major = majorTypeText then
        if add = addInfoIndefinite then validateTextChunksF fuel rest
        else
          match ReadStringZC (lead :: rest) with
          | .error e => .error e
          | .ok (s, o) => if ¬ (isUTF8Valid s) then .error .invalidUTF8 else .ok o
      else if major = majorTypeArray then
        if add = addInfoIndefinite then validateItemsIndefF fuel depth rest
        else
          match readUintCore (lead :: rest) majorTypeArray with
          | .error e => .error e
          | .ok (sz, o) => validateItemsF fuel depth sz o
      else if major = majorTypeMap then
        if add = addInfoIndefinite then validatePairsIndefF fuel depth rest
        else
          match readUintCore (lead :: rest) majorTypeMap with
          | .error e => .error e
          | .ok (sz, o) => validatePairsF fuel depth sz o
      else if major = majorTypeSimple then
        if add = simpleFalse ∨ add = simpleTrue ∨ add = simpleNull ∨ add = simpleUndefined then
          .ok rest
        else if add = simpleFloat16 then
          if b.length < 3 then .error .shortBytes else .ok (b.drop 3)
        else if add = simpleFloat32 then
          if b.length < 5 then .error .shortBytes else .ok (b.drop 5)
        else if add = simpleFloat64 then
          if b.length < 9 then .error .shortBytes else .ok (b.drop 9)
        else if add = addInfoUint8 then
          if b.length < 2 then .error .shortBytes else .ok (b.drop 2)
        else if add < 20 then .ok rest
        else .error .unsupportedType
      else .error .unsupportedType

def validateBytesChunksF : Nat → List Nat → Except Err (List Nat)
  | 0, _ => .error .outOfFuel
  | fuel + 1, p =>
    match p with
    | [] => .error .shortBytes
    | c :: r =>
      if c = makeByte majorTypeSimple simpleBreak then .ok r
      else
        match readUintCore (c :: r) majorTypeBytes with
        | .error e => .error e
        | .ok (sz, o) =>
          if o.length < sz then .error .shortBytes
          else validateBytesChunksF fuel (o.drop sz)

def validateTextChunksF : Nat → List Nat → Except Err (List Nat)
  | 0, _ => .error .outOfFuel
  | fuel + 1, p =>
    match p with
    | [] => .error .shortBytes
    | c :: r =>
      if c = makeByte majorTypeSimple simpleBreak then .ok r
      else
        match ReadStringZC (c :: r) with
        | .error e => .error e
        | .ok (chunk, o) =>
          if ¬ (isUTF8Valid chunk) then .error .invalidUTF8
          else validateTextChunksF fuel o

def validateItemsIndefF : Nat → Nat → List Nat → Except Err (List Nat)
  | 0, _, _ => .error .outOfFuel
  | fuel + 1, depth, p =>
    match p with
    | [] => .error .shortBytes
    | c :: r =>
      if c = makeByte majorTypeSimple simpleBreak then .ok r
      else
        match validateWellFormedF fuel (depth + 1) (c :: r) with
        | .error e => .error e
        | .ok o => validateItemsIndefF fuel depth o

def validateItemsF : Nat → Nat → Nat → List Nat → Except Err (List Nat)
  | 0, _, _, _ => .error .outOfFuel
  | _ + 1, _, 0, o => .ok o
  | fuel + 1, depth, sz + 1, o =>
    match validateWellFormedF fuel (depth + 1) o with
    | .error e => .error e
    | .ok o2 => validateItemsF fuel depth sz o2

def validatePairsIndefF : Nat → Nat → List Nat → Except Err (List Nat)
  | 0, _, _ => .error .outOfFuel
  | fuel + 1, depth, p =>
    match p with
    | [] => .error .shortBytes
    | c :: r =>
      if c = makeByte majorTypeSimple simpleBreak then .ok r
      else
        match validateWellFormedF fuel (depth + 1) (c :: r) with
        | .error e => .error e
        | .ok o =>
          match validateWellFormedF fuel (depth + 1) o with
          | .error e => .error e
          | .ok o2 => validatePairsIndefF fuel depth o2

def validatePairsF : Nat → Nat → Nat → List Nat → Except Err (List Nat)
  | 0, _, _, _ => .error .outOfFuel
  | _ + 1, _, 0, o => .ok o
  | fuel + 1, depth, sz + 1, o =>
    match validateWellFormedF fuel (depth + 1) o with
    | .error e => .error e
    | .ok o2 =>
      match validateWellFormedF fuel (depth + 1) o2 with
      | .error e => .error e
      | .ok o3 => validatePairsF fuel depth sz o3

end

/-- `ValidateWellFormedBytes` (`runtime/helpers.go`). -/
def ValidateWellFormedBytes (b : List Nat) : Except Err (List Nat) :=
  validateWellFormedF (2 * b.length + 1) 0 b


/-- Indefinite-map loop of `ReadMapNoDupBytes` (`runtime/read_bytes.go`):
raw encoded key bytes are the entry identity; `seen` models the Go
`map[string]struct{}` membership set.  Fuel is Lean-only. -/
def readMapNoDupIndefF : Nat → List (List Nat) → List Nat → Except Err (List Nat)
  | 0, _, _ => .error .outOfFuel
  | fuel + 1, seen, p =>
    match p with
    | [] => .error .shortBytes
    | c :: r =>
      if c = makeByte majorTypeSimple simpleBreak then .ok r
      else
        match Skip (c :: r) with
        | .error e => .error e
        | .ok rk =>
          let rawKey := (c :: r).take ((c :: r).length - rk.length)
          if rawKey ∈ seen then .error .duplicateMapKey
          else
            match Skip rk with
            | .error e => .error e
            | .ok r2 => readMapNoDupIndefF fuel (rawKey :: seen) r2

/-- Definite-map loop of `ReadMapNoDupBytes`; recursion on the remaining
entry count `sz`, as in the Go `for i := ...; i < sz` loop. -/
def readMapNoDupDefF : List (List Nat) → Nat → List Nat → Except Err (List Nat)
  | _, 0, p => .ok p
  | seen, sz + 1, p =>
    match Skip p with
    | .error e => .error e
    | .ok rk =>
      let rawKey := p.take (p.length - rk.length)
      if rawKey ∈ seen then .error .duplicateMapKey
      else
        match Skip rk with
        | .error e => .error e
        | .ok r2 => readMapNoDupDefF (rawKey :: seen) sz r2

/-- `ReadMapNoDupBytes` (`runtime/read_bytes.go`). -/
def ReadMapNoDupBytes (b : List Nat) : Except Err (List Nat) :=
  match b with
  | [] => .error .shortBytes
  | lead :: rest =>
    if getMajorType lead ≠ majorTypeMap then .error (.badPrefix majorTypeMap (getMajorType lead))
    else if getAddInfo lead = addInfoIndefinite then readMapNoDupIndefF (rest.length + 1) [] rest
    else
      match ReadMapHeaderBytes (lead :: rest) with
      | .error e => .error e
      | .ok (sz, p) => readMapNoDupDefF [] sz p

/-- Spec-side entry extraction for maps: the same `Skip`-based traversal as
`ReadMapNoDupBytes`, but collecting the raw (key, value) byte slices instead
of checking duplicates.  Used to state what "the entries of the map" and
"the remainder after the map" mean in claim C6. -/
def mapEntriesIndefF : Nat → List Nat → Except Err (List (List Nat × List Nat) × List Nat)
  | 0, _ => .error .outOfFuel
  | fuel + 1, p =>
    match p with
    | [] => .error .shortBytes
    | c :: r =>
      if c = makeByte majorTypeSimple simpleBreak then .ok ([], r)
      else
        match Skip (c :: r) with
        | .error e => .error e
        | .ok rk =>
          let rawKey := (c :: r).take ((c :: r).length - rk.length)
          match Skip rk with
          | .error e => .error e
          | .ok r2 =>
            let rawVal := rk.take (rk.length - r2.length)
            match mapEntriesIndefF fuel r2 with
            | .error e => .error e
            | .ok (es, rest) => .ok ((rawKey, rawVal) :: es, rest)

def mapEntriesDefF : Nat → List Nat → Except Err (List (List Nat × List Nat) × List Nat)
  | 0, p => .ok ([], p)
  | sz + 1, p =>
    match Skip p with
    | .error e => .error e
    | .ok rk =>
      let rawKey := p.take (p.length - rk.length)
      match Skip rk with
      | .error e => .error e
      | .ok r2 =>
        let rawVal := rk.take (rk.length - r2.length)
        match mapEntriesDefF sz r2 with
        | .error e => .error e
        | .ok (es, rest) => .ok ((rawKey, rawVal) :: es, rest)

/-- Spec-side: the raw entries and remainder of the CBOR map at the head of
`b`, via the same header handling as `ReadMapNoDupBytes`. -/
def mapEntries (b : List Nat) : Except Err (List (List Nat × List Nat) × List Nat) :=
  match b with
  | [] => .error .shortBytes
  | lead :: rest =>
    if getMajorType lead ≠ majorTypeMap then .error (.badPrefix majorTypeMap (getMajorType lead))
    else if getAddInfo lead = addInfoIndefinite then mapEntriesIndefF (rest.length + 1) rest
    else
      match ReadMapHeaderBytes (lead :: rest) with
      | .error e => .error e
      | .ok (sz, p) => mapEntriesDefF sz p


/-- IEEE 754 value of a float bit pattern.  `fin z` holds the real value
scaled by `2^1074`, which is an integer for every finite float64, float32 or
float16 value, so `fvalEq` below is exactly IEEE `==` on non-NaN values
(both zeros are `fin 0`). -/
inductive FVal where
  | fin (z : Int)
  | inf (neg : Bool)
  | nan
deriving Repr, DecidableEq

/-- Value of a float64 bit pattern, scaled by `2^1074` (written `1 <<< k`
for `2^k` so that large concrete instances evaluate). -/
def val64 (b : Nat) : FVal :=
  let sign : Nat := b / 2 ^ 63 % 2
  let exp : Nat := b / 2 ^ 52 % 2 ^ 11
  let mant : Nat := b % 2 ^ 52
  if exp = 0x7ff then (if mant = 0 then .inf (sign = 1) else .nan)
  else
    let mag : Nat := if exp = 0 then mant else (2 ^ 52 + mant) * (1 <<< (exp - 1))
    .fin (if sign = 1 then -(mag : Int) else (mag : Int))

/-- Value of a float32 bit pattern, scaled by `2^1074`. -/
def val32 (b : Nat) : FVal :=
  let sign : Nat := b / 2 ^ 31 % 2
  let exp : Nat := b / 2 ^ 23 % 2 ^ 8
  let mant : Nat := b % 2 ^ 23
  if exp = 0xff then (if mant = 0 then .inf (sign = 1) else .nan)
  else
    let mag : Nat := if exp = 0 then mant * (1 <<< 925) else (2 ^ 23 + mant) * (1 <<< (exp + 924))
    .fin (if sign = 1 then -(mag : Int) else (mag : Int))

/-- IEEE `==` on float values: NaN compares unequal to everything, the two
zeros compare equal (both are `fin 0`). -/
def fvalEq (a b : FVal) : Bool :=
  match a, b with
  | .fin x, .fin y => x = y
  | .inf s, .inf t => s = t
  | _, _ => false

/-- `math.IsNaN` on float64 bits. -/
def isNaN64 (b : Nat) : Bool := b / 2 ^ 52 % 2 ^ 11 = 0x7ff ∧ b % 2 ^ 52 ≠ 0

/-- Go `float32(f)` on float64 bits: IEEE 754 round-to-nearest-even narrowing
(modelled from the language/IEEE semantics; NaNs are quieted with the high
22 payload bits kept, as on amd64/arm64).  All bit fields are assembled with
`+` on disjoint ranges. -/
def f64ToF32Bits (b : Nat) : Nat :=
  let sign := b / 2 ^ 63 % 2
  let exp := b / 2 ^ 52 % 2 ^ 11
  let mant := b % 2 ^ 52
  if exp = 0x7ff then
    if mant = 0 then sign * 2 ^ 31 + 0x7f800000
    else sign * 2 ^ 31 + 0x7f800000 + (2 ^ 22 + mant / 2 ^ 29 % 2 ^ 22)
  else if exp = 0 then
    sign * 2 ^ 31
  else if exp ≥ 896 + 255 then
    sign * 2 ^ 31 + 0x7f800000
  else if exp ≥ 897 then
    let e32 := exp - 896
    let shifted := mant / 2 ^ 29
    let rounded :=
      if mant / 2 ^ 28 % 2 = 1 ∧ (mant % 2 ^ 28 ≠ 0 ∨ shifted % 2 = 1) then shifted + 1
      else shifted
    if rounded = 2 ^ 23 then
      if e32 + 1 ≥ 255 then sign * 2 ^ 31 + 0x7f800000
      else sign * 2 ^ 31 + (e32 + 1) * 2 ^ 23
    else sign * 2 ^ 31 + e32 * 2 ^ 23 + rounded
  else
    let shift := 926 - exp
    let sig := 2 ^ 52 + mant
    let q := sig / 2 ^ shift
    let r :=
      if sig / 2 ^ (shift - 1) % 2 = 1 ∧ (sig % 2 ^ (shift - 1) ≠ 0 ∨ q % 2 = 1) then q + 1
      else q
    sign * 2 ^ 31 + r

/-- `float32ToFloat16Bits` (`runtime/read_bytes.go`), translated bit-for-bit
on float32 bit patterns; disjoint-bit `|` is written `+`, and the Go `int`
arithmetic on exponents is carried out on the biased `exp` field directly
(`e16 = exp - 112`, `shift = 14 - e32 = 141 - exp`). -/
def float32ToFloat16Bits (fbits : Nat) : Nat :=
  let sign := fbits / 2 ^ 31 % 2
  let exp := fbits / 2 ^ 23 % 2 ^ 8
  let mant := fbits % 2 ^ 23
  let h :=
    if exp = 0xff then
      if mant = 0 then 0x1f * 2 ^ 10
      else
        let h0 := 0x1f * 2 ^ 10 + mant / 2 ^ 13
        if h0 % 2 ^ 10 = 0 then h0 + 1 else h0
    else if exp = 0 then 0
    else if exp ≥ 112 + 0x1f then 0x1f * 2 ^ 10
    else if exp ≤ 112 then
      let shift := 141 - exp
      if shift > 24 then 0
      else
        let mantissa := mant + 2 ^ 23
        let round := 2 ^ (shift - 1)
        let val := mantissa + round - 1 + mantissa / 2 ^ shift % 2
        val / 2 ^ shift % 2 ^ 10
    else
      let e16 := exp - 112
      let round := 2 ^ 12
      let val := mant + round - 1 + mant / 2 ^ 13 % 2
      let frac := val / 2 ^ 13
      if frac / 2 ^ 10 ≠ 0 then
        if e16 + 1 ≥ 0x1f then 0x1f * 2 ^ 10 else (e16 + 1) * 2 ^ 10
      else e16 * 2 ^ 10 + frac % 2 ^ 10
  sign * 2 ^ 15 + h

/-- `float16BitsToFloat32` (`runtime/read_bytes.go`): exact widening.  The
subnormal case builds `Ldexp(mant, -24)` — an exact, normal float32 whose
bits are computed here via the position of the leading bit of `mant`.  The
normal case computes `e32 := int(exp) - 15 + 127` in signed Go arithmetic;
with `1 ≤ exp ≤ 30` here, that is `exp + 112` (written so, since `ℕ`
subtraction would truncate `exp - 15` for `exp < 15`). -/
def float16BitsToFloat32 (h : Nat) : Nat :=
  let sign := h / 2 ^ 15 % 2
  let exp := h / 2 ^ 10 % 2 ^ 5
  let mant := h % 2 ^ 10
  if exp = 0 then
    if mant = 0 then sign * 2 ^ 31
    else
      let p := Nat.log2 mant
      sign * 2 ^ 31 + (p + 103) * 2 ^ 23 + mant * 2 ^ (23 - p) % 2 ^ 23
  else if exp = 0x1f then
    if mant = 0 then sign * 2 ^ 31 + 0xff * 2 ^ 23
    else sign * 2 ^ 31 + 0xff * 2 ^ 23 + mant * 2 ^ 13
  else
    sign * 2 ^ 31 + (exp + 112) * 2 ^ 23 + mant * 2 ^ 13

/-- `AppendFloat16` (`runtime/read_bytes.go`), on float32 bits. -/
def AppendFloat16 (b : List Nat) (fbits : Nat) : List Nat :=
  b ++ [makeByte majorTypeSimple simpleFloat16] ++ bePut 2 (float32ToFloat16Bits fbits)

/-- `AppendFloat32` (`runtime/read_bytes.go`), on float32 bits. -/
def AppendFloat32 (b : List Nat) (fbits : Nat) : List Nat :=
  b ++ [makeByte majorTypeSimple simpleFloat32] ++ bePut 4 fbits

/-- `AppendFloat64` (`runtime/read_bytes.go`), on float64 bits. -/
def AppendFloat64 (b : List Nat) (fbits : Nat) : List Nat :=
  b ++ [makeByte majorTypeSimple simpleFloat64] ++ bePut 8 fbits

/-- `AppendFloatCanonical` (`runtime/read_bytes.go`), on float64 bits.
`f == 0 && math.Signbit(f)` holds exactly for the bit pattern of `-0`;
`float64(x) == f` for a float32 `x` compares the exact widened value with
`f`, which is `fvalEq (val32 x) (val64 f)`. -/
def AppendFloatCanonical (b : List Nat) (fb : Nat) : List Nat :=
  let f := if fb = 0x8000000000000000 then 0 else fb
  if isNaN64 f then AppendFloat16 b (f64ToF32Bits f)
  else
    let f16 := float32ToFloat16Bits (f64ToF32Bits f)
    if fvalEq (val32 (float16BitsToFloat32 f16)) (val64 f) then
      AppendFloat16 b (f64ToF32Bits f)
    else
      let f32 := f64ToF32Bits f
      if fvalEq (val32 f32) (val64 f) then AppendFloat32 b f32
      else AppendFloat64 b f

/-- Float16 NaN: all-ones exponent and non-zero payload. -/
def isNaN16 (h : Nat) : Bool := h / 2 ^ 10 % 2 ^ 5 = 0x1f ∧ h % 2 ^ 10 ≠ 0


/-- `RawPair` (`runtime/defs.go`): an already-encoded CBOR key/value pair. -/
structure RawPair where
  Key : List Nat
  Value : List Nat
deriving Repr, DecidableEq

/-- `AppendMapHeader` (`runtime/read_bytes.go`). -/
def AppendMapHeader (b : List Nat) (sz : Nat) : List Nat :=
  appendUintCore b majorTypeMap sz

/-- `bytes.Compare(a, b) <= 0`: lexicographic byte order with shorter
prefixes first (Go standard library contract used by `sort.Slice` calls). -/
def bytesLe : List Nat → List Nat → Bool
  | [], _ => true
  | _ :: _, [] => false
  | a :: as, b :: bs => if a < b then true else if b < a then false else bytesLe as bs

/-- Key lookup by index in the shared deterministic-order machinery. -/
def keyAt (keys : List (List Nat)) (i : Nat) : List Nat := keys.getD i []

/-- `pairs[idx].Key[pos]` in the radix passes. -/
def byteAt (keys : List (List Nat)) (i pos : Nat) : Nat := (keyAt keys i).getD pos 0

/-- The `counts` histogram of one counting pass: the mutable 256-entry array
is modelled as a function updated pointwise (`for _, idx := range cur {
counts[key[idx][pos]]++ }` after zeroing). -/
def radixCounts (f : Nat → Nat) (cur : List Nat) : Nat → Nat :=
  cur.foldl (fun cnts idx => fun v => if v = f idx then cnts v + 1 else cnts v) (fun _ => 0)

/-- The exclusive prefix-sum loop (`sum := 0; for i := 0..255 { c := counts[i];
counts[i] = sum; sum += c }`). -/
def radixOffsets (counts : Nat → Nat) : Nat → Nat :=
  ((List.range 256).foldl
    (fun (st : (Nat → Nat) × Nat) i =>
      (fun v => if v = i then st.2 else st.1 v, st.2 + counts i))
    (counts, 0)).1

/-- The stable placement loop (`for _, idx := range cur { bv := key[idx][pos];
p := counts[bv]; aux[p] = idx; counts[bv] = p + 1 }`); `aux` is a function
from slot to index. -/
def radixPlace (f : Nat → Nat) (cur : List Nat) (offsets : Nat → Nat) :
    (Nat → Nat) × (Nat → Nat) :=
  cur.foldl
    (fun (st : (Nat → Nat) × (Nat → Nat)) idx =>
      let bv := f idx
      let p := st.2 bv
      (fun x => if x = p then idx else st.1 x, fun v => if v = bv then p + 1 else st.2 v))
    (fun _ => 0, offsets)

/-- One 256-way counting pass of the LSD radix sort in
`AppendRawMapDeterministic` / `AppendMapDeterministic`
(`runtime/read_bytes.go`); the result reads back the `aux` slots
`0 .. cur.length-1`. -/
def countingPass (keys : List (List Nat)) (pos : Nat) (cur : List Nat) : List Nat :=
  let f := fun i => byteAt keys i pos
  (List.range cur.length).map (radixPlace f cur (radixOffsets (radixCounts f cur))).1

/-- The `for pos := l-1; pos >= 0; pos--` radix loop, `posCount` passes. -/
def radixFrom (keys : List (List Nat)) : Nat → List Nat → List Nat
  | 0, cur => cur
  | pos + 1, cur => radixFrom keys pos (countingPass keys pos cur)

/-- Per-length-bucket ordering: singleton groups pass through; small groups
use the comparator path (`sort.Slice` with `bytes.Compare < 0`, modelled by
`mergeSort` — any algorithm meeting the documented sorted-permutation
contract); large groups use the LSD radix sort. -/
def sortGroup (keys : List (List Nat)) (l : Nat) (grp : List Nat) : List Nat :=
  if grp.length ≤ 1 then grp
  else if l < 64 ∧ grp.length < 1024 then
    grp.mergeSort (fun i j => bytesLe (keyAt keys i) (keyAt keys j))
  else radixFrom keys l grp

/-- Distinct encoded-key lengths present, ascending (the Go `byLen` map keys
run through `sort.Ints`). -/
def lensSorted (keys : List (List Nat)) : List Nat :=
  ((keys.map List.length).dedup).mergeSort (fun a b => decide (a ≤ b))

/-- Indices with encoded-key length `l`, in ascending index order (the Go
`byLen` buckets are filled by the `for i := 0; i < n; i++` loop). -/
def lenGroup (keys : List (List Nat)) (l : Nat) : List Nat :=
  (List.range keys.length).filter (fun i => (keyAt keys i).length = l)

/-- The emission order of `AppendRawMapDeterministic` /
`AppendMapDeterministic`: groups by ascending key length, each group sorted
by key bytes. -/
def deterministicOrder (keys : List (List Nat)) : List Nat :=
  (lensSorted keys).flatMap (fun l => sortGroup keys l (lenGroup keys l))

/-- `AppendRawMapDeterministic` (`runtime/read_bytes.go`); `uint32(n)` is
`n % 2^32`. -/
def AppendRawMapDeterministic (b : List Nat) (pairs : List RawPair) : List Nat :=
  if pairs.length = 0 then AppendMapHeader b 0
  else
    AppendMapHeader b (pairs.length % 2 ^ 32) ++
      (deterministicOrder (pairs.map RawPair.Key)).flatMap
        (fun i => (pairs.getD i ⟨[], []⟩).Key ++ (pairs.getD i ⟨[], []⟩).Value)

/-- `AppendMapDeterministic` (`runtime/read_bytes.go`), over the iteration
snapshot of the Go map as an association list; `encKey` appends a key
encoding (so each recorded `keyEnc` is `encKey [] k`), `encVal` may fail. -/
def AppendMapDeterministic {K V : Type} [Inhabited V] (b : List Nat) (m : List (K × V))
    (encKey : List Nat → K → List Nat) (encVal : List Nat → V → Except Err (List Nat)) :
    Except Err (List Nat) :=
  let items := m.map (fun kv => (encKey [] kv.1, kv.2))
  let order := deterministicOrder (items.map Prod.fst)
  let start := AppendMapHeader b (items.length % 2 ^ 32)
  order.foldl
    (fun acc i =>
      match acc with
      | .error e => .error e
      | .ok out =>
        let it := items.getD i ([], default)
        match encVal (out ++ it.1) it.2 with
        | .error e => .error e
        | .ok out2 => .ok out2)
    (.ok start)

/-- Length-first-then-lexicographic key order of RFC 8949 §4.2.1 (the
deterministic map contract in the spec). -/
def lenLexLe (a b : List Nat) : Bool :=
  if a.length < b.length then true
  else if b.length < a.length then false
  else bytesLe a b

/-- Semantic tag numbers (`runtime/defs.go`). -/
def tagDateTimeString : Nat := 0

def tagEpochDateTime : Nat := 1

def tagPosBignum : Nat := 2

def tagNegBignum : Nat := 3

def tagDecimalFrac : Nat := 4

def tagBigfloat : Nat := 5

def tagBase64URL : Nat := 21

def tagBase64 : Nat := 22

def tagBase16 : Nat := 23

def tagCBOR : Nat := 24

def tagURI : Nat := 32

def tagBase64URLString : Nat := 33

def tagBase64String : Nat := 34

def tagRegexp : Nat := 35

def tagMIME : Nat := 36

def tagSelfDescribeCBOR : Nat := 55799

/-- ASCII bytes of a Lean string literal (all literals used are ASCII). -/
def lit (s : String) : List Nat := s.data.map Char.toNat

/-- Decimal digit bytes of a natural (`strconv`/`big.Int` formatting). -/
def natDecBytes (n : Nat) : List Nat := (Nat.toDigits 10 n).map Char.toNat

/-- Decimal byte rendering of an integer, as produced by `big.Int.String`
and `strconv.FormatInt`: optional ASCII minus sign then digits. -/
def intDecBytes (z : Int) : List Nat :=
  if z < 0 then 0x2d :: natDecBytes z.natAbs else natDecBytes z.toNat

/-- One lowercase hex digit byte (`encoding/hex` alphabet). -/
def hexDigitB (n : Nat) : Nat := if n < 10 then 0x30 + n else 0x57 + n

/-- Lowercase hex byte expansion of a byte string (`hex.Encode`). -/
def hexBytes (bs : List Nat) : List Nat :=
  bs.flatMap (fun b => [hexDigitB (b / 16), hexDigitB (b % 16)])

/-- Go standard-library functions used by the JSON interop layer, modelled
as parameters: `json.Marshal` on a Go string, `time.Format(RFC3339Nano)`,
`time.Parse(RFC3339Nano, ·)` (`none` models a parse error), the
float→`(sec, nsec)` epoch arithmetic of `ReadTimeBytes` (from float64 and
float32 bit patterns), and the base64 encoders. Go strings and `[]byte`
are byte lists; `time.Time` is `(sec, nsec)` as produced by `time.Unix`. -/
structure GoLib where
  marshalStr : List Nat → List Nat
  fmtTime : Int × Int → List Nat
  parseRFC3339 : List Nat → Option (Int × Int)
  epochF64 : Nat → Int × Int
  epochF32 : Nat → Int × Int
  b64url : List Nat → List Nat
  b64std : List Nat → List Nat

/-- `ReadTagBytes` (`runtime/read_bytes.go`). -/
def ReadTagBytes (b : List Nat) : Except Err (Nat × List Nat) :=
  readUintCore b majorTypeTag

/-- `ReadFloat64Bytes` (`runtime/read_bytes.go`), returning the IEEE 754
binary64 bit pattern. -/
def ReadFloat64Bytes (b : List Nat) : Except Err (Nat × List Nat) :=
  match b with
  | [] => .error .shortBytes
  | lead :: rest =>
    if b.length < 9 then .error .shortBytes
    else if lead ≠ 0xfb then .error (.badPrefix (getMajorType lead) majorTypeSimple)
    else .ok (beUint (rest.take 8), rest.drop 8)

/-- `ReadFloat32Bytes` (`runtime/read_bytes.go`), returning the IEEE 754
binary32 bit pattern. -/
def ReadFloat32Bytes (b : List Nat) : Except Err (Nat × List Nat) :=
  match b with
  | [] => .error .shortBytes
  | lead :: rest =>
    if b.length < 5 then .error .shortBytes
    else if lead ≠ 0xfa then .error (.badPrefix (getMajorType lead) majorTypeSimple)
    else .ok (beUint (rest.take 4), rest.drop 4)

/-- `ReadFloat16Bytes` (`runtime/read_bytes.go`): widens the binary16 bits
to a float32 bit pattern via `float16BitsToFloat32`. -/
def ReadFloat16Bytes (b : List Nat) : Except Err (Nat × List Nat) :=
  match b with
  | [] => .error .shortBytes
  | lead :: rest =>
    if b.length < 3 then .error .shortBytes
    else if lead ≠ 0xf9 then .error (.badPrefix (getMajorType lead) majorTypeSimple)
    else .ok (float16BitsToFloat32 (beUint (rest.take 2)), rest.drop 2)

/-- `ReadTimeBytes` (`runtime/read_bytes.go`): tag(1) epoch time. The
integer path is `time.Unix(sec, 0)`; the float paths delegate the
floor/round arithmetic to the `GoLib` epoch parameters on the bit
patterns (for float16, after the exact widening to float32). -/
def ReadTimeBytes (L : GoLib) (b : List Nat) : Except Err ((Int × Int) × List Nat) :=
  if b.length < 2 then .error .shortBytes
  else
    match b with
    | [] => .error .shortBytes
    | lead :: _ =>
      if getMajorType lead ≠ majorTypeTag then
        .error (.badPrefix (getMajorType lead) majorTypeTag)
      else
        match readUintCore b majorTypeTag with
        | .error e => .error e
        | .ok (tag, o) =>
          if tag ≠ tagEpochDateTime then .error (.other "cbor: expected epoch datetime tag")
          else
            match o with
            | [] => .error .shortBytes
            | o0 :: _ =>
              if getMajorType o0 = majorTypeUint ∨ getMajorType o0 = majorTypeNegInt then
                match ReadInt64Bytes o with
                | .error e => .error e
                | .ok (sec, o2) => .ok ((sec, 0), o2)
              else if getMajorType o0 = majorTypeSimple then
                if getAddInfo o0 = simpleFloat64 then
                  match ReadFloat64Bytes o with
                  | .error e => .error e
                  | .ok (bits, o2) => .ok (L.epochF64 bits, o2)
                else if getAddInfo o0 = simpleFloat32 then
                  match ReadFloat32Bytes o with
                  | .error e => .error e
                  | .ok (bits, o2) => .ok (L.epochF32 bits, o2)
                else if getAddInfo o0 = simpleFloat16 then
                  match ReadFloat16Bytes o with
                  | .error e => .error e
                  | .ok (bits, o2) => .ok (L.epochF32 bits, o2)
                else .error .unsupportedType
              else .error .unsupportedType

/-- `ReadRFC3339TimeBytes` (`runtime/read_bytes.go`): tag(0) RFC3339 text
string, parsed by `time.Parse(RFC3339Nano, ·)`. -/
def ReadRFC3339TimeBytes (L : GoLib) (b : List Nat) :
    Except Err ((Int × Int) × List Nat) :=
  match ReadTagBytes b with
  | .error e => .error e
  | .ok (tag, o) =>
    if tag ≠ tagDateTimeString then .error (.badPrefix majorTypeTag majorTypeTag)
    else
      match ReadStringBytes o with
      | .error e => .error e
      | .ok (s, o2) =>
        match L.parseRFC3339 s with
        | none => .error (.other "time parse error")
        | some tm => .ok (tm, o2)

/-- Shared body of the tag+text readers for tags 32/33/34/35/36
(`ReadURIStringBytes`, `ReadBase64URLStringBytes`, `ReadBase64StringBytes`,
`ReadRegexpStringBytes`, `ReadMIMEStringBytes` in `runtime/read_bytes.go`):
read the tag, check it, then `ReadStringBytes`. -/
def readTagStringCore (want : Nat) (b : List Nat) : Except Err (List Nat × List Nat) :=
  match ReadTagBytes b with
  | .error e => .error e
  | .ok (tag, o) =>
    if tag ≠ want then .error (.badPrefix majorTypeTag majorTypeTag)
    else ReadStringBytes o

/-- Shared body of the tag+bytes readers for tags 21/22/23/24
(`ReadBase64URLBytes`, `ReadBase64Bytes`, `ReadBase16Bytes`,
`ReadEmbeddedCBORBytes` in `runtime/read_bytes.go`). -/
def readTagBytesCore (want : Nat) (b : List Nat) : Except Err (List Nat × List Nat) :=
  match ReadTagBytes b with
  | .error e => .error e
  | .ok (tag, o) =>
    if tag ≠ want then .error (.badPrefix majorTypeTag majorTypeTag)
    else ReadBytesBytes o []

/-- `ReadUUIDBytes` (`runtime/read_bytes.go`): tag 37 with a 16-byte
byte string. -/
def ReadUUIDBytes (b : List Nat) : Except Err (List Nat × List Nat) :=
  match ReadTagBytes b with
  | .error e => .error e
  | .ok (tag, o) =>
    if tag ≠ 37 then .error (.badPrefix majorTypeTag majorTypeTag)
    else
      match ReadBytesBytes o [] with
      | .error e => .error e
      | .ok (bs, o2) =>
        if bs.length ≠ 16 then .error (.other "cbor: uuid must be 16 bytes")
        else .ok (bs, o2)

/-- `StripSelfDescribeCBOR` (`runtime/read_bytes.go`). -/
def StripSelfDescribeCBOR (b : List Nat) : Except Err (List Nat × Bool) :=
  match b with
  | [] => .error .shortBytes
  | lead :: _ =>
    if getMajorType lead ≠ majorTypeTag then .ok (b, false)
    else
      match ReadTagBytes b with
      | .error e => .error e
      | .ok (tag, o) =>
        if tag ≠ tagSelfDescribeCBOR then .ok (b, false)
        else .ok (o, true)

/-- `ReadBigIntBytes` (`runtime/read_bytes.go`): bignum tags 2/3;
`big.Int.SetBytes` is the big-endian magnitude, tag 3 yields `-1 - mag`. -/
def ReadBigIntBytes (b : List Nat) : Except Err (Int × List Nat) :=
  match ReadTagBytes b with
  | .error e => .error e
  | .ok (tag, o) =>
    match ReadBytesBytes o [] with
    | .error e => .error e
    | .ok (bs, o2) =>
      let mag : Int := beUint bs
      if tag = tagPosBignum then .ok (mag, o2)
      else if tag = tagNegBignum then .ok (-(mag + 1), o2)
      else .error (.badPrefix majorTypeTag majorTypeTag)

/-- `readCBORIntegerAsBigInt` (`runtime/read_bytes.go`): a CBOR integer
(major type 0/1) or bignum (tag 2/3) as an unbounded integer. -/
def readCBORIntegerAsBigInt (b : List Nat) : Except Err (Int × List Nat) :=
  match b with
  | [] => .error .shortBytes
  | lead :: _ =>
    if getMajorType lead = majorTypeUint then
      match readUintCore b majorTypeUint with
      | .error e => .error e
      | .ok (u, o) => .ok ((u : Int), o)
    else if getMajorType lead = majorTypeNegInt then
      match ReadInt64Bytes b with
      | .error e => .error e
      | .ok (i, o) => .ok (i, o)
    else if getMajorType lead = majorTypeTag then
      match ReadTagBytes b with
      | .error e => .error e
      | .ok (tag, o) =>
        if tag ≠ tagPosBignum ∧ tag ≠ tagNegBignum then .error .unsupportedType
        else
          match ReadBytesBytes o [] with
          | .error e => .error e
          | .ok (bs, o2) =>
            let mag : Int := beUint bs
            .ok (if tag = tagNegBignum then -(mag + 1) else mag, o2)
    else .error .unsupportedType

/-- Shared body of `ReadDecimalFractionBytes` (tag 4) and
`ReadBigfloatBytes` (tag 5) (`runtime/read_bytes.go`): a two-element
array (definite or indefinite) of exponent and mantissa. -/
def readExpMantCore (want : Nat) (b : List Nat) :
    Except Err (Int × Int × List Nat) :=
  match ReadTagBytes b with
  | .error e => .error e
  | .ok (tag, o) =>
    if tag ≠ want then .error .unsupportedType
    else
      match o with
      | [] => .error .shortBytes
      | o0 :: p0 =>
        if o0 = makeByte majorTypeArray addInfoIndefinite then
          match ReadInt64Bytes p0 with
          | .error e => .error e
          | .ok (exp, p1) =>
            match readCBORIntegerAsBigInt p1 with
            | .error e => .error e
            | .ok (mant, p2) =>
              match p2 with
              | [] => .error .unsupportedType
              | c :: p3 =>
                if c ≠ makeByte majorTypeSimple simpleBreak then .error .unsupportedType
                else .ok (exp, mant, p3)
        else
          match ReadArrayHeaderBytes o with
          | .error e => .error e
          | .ok (sz, p1) =>
            if sz ≠ 2 then .error (.arrayErr 2 sz)
            else
              match ReadInt64Bytes p1 with
              | .error e => .error e
              | .ok (exp, p2) =>
                match readCBORIntegerAsBigInt p2 with
                | .error e => .error e
                | .ok (mant, p3) => .ok (exp, mant, p3)

/-- The `case majorTypeTag` arm of `toJSON` (`runtime/json_interop.go`),
written to an output byte list instead of a `bytes.Buffer`; `recur` is the
recursive `toJSON` call used by the generic default case, and `L` supplies
the Go standard-library payload formatters. Returns the JSON bytes written
and the remaining input. -/
def toJSONTag (L : GoLib) (recur : List Nat → Except Err (List Nat × List Nat))
    (b : List Nat) : Except Err (List Nat × List Nat) :=
  match ReadTagBytes b with
  | .error e => .error e
  | .ok (tag, o) =>
    if tag = tagDateTimeString then
      match ReadRFC3339TimeBytes L b with
      | .error e => .error e
      | .ok (tm, rest) => .ok (L.marshalStr (L.fmtTime tm), rest)
    else if tag = tagEpochDateTime then
      match ReadTimeBytes L b with
      | .error e => .error e
      | .ok (tm, rest) => .ok (L.marshalStr (L.fmtTime tm), rest)
    else if tag = tagPosBignum ∨ tag = tagNegBignum then
      match ReadBigIntBytes b with
      | .error e => .error e
      | .ok (z, rest) => .ok (L.marshalStr (intDecBytes z), rest)
    else if tag = tagDecimalFrac then
      match readExpMantCore tagDecimalFrac b with
      | .error e => .error e
      | .ok (exp, mant, rest) =>
        .ok (lit "\x7b\"$decimal\":[" ++ intDecBytes exp ++ lit "," ++
          L.marshalStr (intDecBytes mant) ++ lit "]\x7d", rest)
    else if tag = tagBigfloat then
      match readExpMantCore tagBigfloat b with
      | .error e => .error e
      | .ok (exp, mant, rest) =>
        .ok (lit "\x7b\"$bigfloat\":[" ++ intDecBytes exp ++ lit "," ++
          L.marshalStr (intDecBytes mant) ++ lit "]\x7d", rest)
    else if tag = tagBase64URL then
      match readTagBytesCore tagBase64URL b with
      | .error e => .error e
      | .ok (bs, rest) =>
        .ok (lit "\x7b\"$base64url\":\"" ++ L.b64url bs ++ lit "\"\x7d", rest)
    else if tag = tagBase64 then
      match readTagBytesCore tagBase64 b with
      | .error e => .error e
      | .ok (bs, rest) =>
        .ok (lit "\x7b\"$base64\":\"" ++ L.b64std bs ++ lit "\"\x7d", rest)
    else if tag = tagBase16 then
      match readTagBytesCore tagBase16 b with
      | .error e => .error e
      | .ok (bs, rest) =>
        .ok (lit "\x7b\"$base16\":\"" ++ hexBytes bs ++ lit "\"\x7d", rest)
    else if tag = tagCBOR then
      match readTagBytesCore tagCBOR b with
      | .error e => .error e
      | .ok (payload, rest) =>
        .ok (lit "\x7b\"$cbor\":\"" ++ L.b64std payload ++ lit "\"\x7d", rest)
    else if tag = tagURI then
      match readTagStringCore tagURI b with
      | .error e => .error e
      | .ok (s, rest) => .ok (L.marshalStr s, rest)
    else if tag = tagBase64URLString then
      match readTagStringCore tagBase64URLString b with
      | .error e => .error e
      | .ok (s, rest) =>
        .ok (lit "\x7b\"$base64urlstr\":" ++ L.marshalStr s ++ lit "\x7d", rest)
    else if tag = tagBase64String then
      match readTagStringCore tagBase64String b with
      | .error e => .error e
      | .ok (s, rest) =>
        .ok (lit "\x7b\"$base64str\":" ++ L.marshalStr s ++ lit "\x7d", rest)
    else if tag = tagRegexp then
      match readTagStringCore tagRegexp b with
      | .error e => .error e
      | .ok (s, rest) =>
        .ok (lit "\x7b\"$regex\":" ++ L.marshalStr s ++ lit "\x7d", rest)
    else if tag = tagMIME then
      match readTagStringCore tagMIME b with
      | .error e => .error e
      | .ok (s, rest) =>
        .ok (lit "\x7b\"$mime\":" ++ L.marshalStr s ++ lit "\x7d", rest)
    else if tag = 37 then
      match ReadUUIDBytes b with
      | .error e => .error e
      | .ok (u, rest) =>
        let hexs := hexBytes u
        let uuidStr := hexs.take 8 ++ [0x2d] ++ ((hexs.drop 8).take 4) ++ [0x2d] ++
          ((hexs.drop 12).take 4) ++ [0x2d] ++ ((hexs.drop 16).take 4) ++ [0x2d] ++
          ((hexs.drop 20).take 12)
        .ok (lit "\x7b\"$uuid\":\"" ++ uuidStr ++ lit "\"\x7d", rest)
    else if tag = tagSelfDescribeCBOR then
      match StripSelfDescribeCBOR b with
      | .ok (_, true) => .ok (lit "\x7b\"$selfdescribe\":true\x7d", o)
      | _ => .error .unsupportedType
    else
      match recur o with
      | .error e => .error e
      | .ok (vout, rest) =>
        .ok (lit "\x7b\"$tag\":" ++ natDecBytes tag ++ lit ",\"$\":" ++ vout ++
          lit "\x7d", rest)

/-- A concrete instantiation of the Go standard-library parameters, used
only to evaluate `toJSONTag` on closed inputs: `json.Marshal` is modelled
as quoting, times format to a fixed marker, parsing always succeeds, and
the base64 encoders are identity on bytes. -/
def stubGoLib : GoLib where
  marshalStr := fun s => 0x22 :: s ++ [0x22]
  fmtTime := fun _ => [0x54]
  parseRFC3339 := fun _ => some (0, 0)
  epochF64 := fun _ => (0, 0)
  epochF32 := fun _ => (0, 0)
  b64url := fun s => s
  b64std := fun s => s

/-- JSON values as produced by `json.Decoder` with `UseNumber` in
`FromJSONBytes` (`runtime/json_from.go`): null, bool, `json.Number`
(decimal text), string, array, object; a decoded Go `map[string]any` is an
association list with distinct keys. -/
inductive JVal where
  | jnull
  | jbool (x : Bool)
  | jnum (s : List Nat)
  | jstr (s : List Nat)
  | jarr (xs : List JVal)
  | jobj (fields : List (List Nat × JVal))

/-- Go map lookup `m[k]` on the association-list model. -/
def jlookup (m : List (List Nat × JVal)) (k : List Nat) : Option JVal :=
  (m.find? (fun kv => kv.1 = k)).map (fun kv => kv.2)

/-- `v.(string)` with the zero value on failure (`s, _ := v.(string)`). -/
def asString : JVal → List Nat
  | .jstr s => s
  | _ => []

/-- `strings.ContainsAny(string(x), ".eE")`. -/
def containsDotEE (s : List Nat) : Bool :=
  s.any (fun c => c = 0x2e ∨ c = 0x65 ∨ c = 0x45)

/-- One decimal digit value. -/
def decDigit (c : Nat) : Option Nat :=
  if 0x30 ≤ c ∧ c ≤ 0x39 then some (c - 0x30) else none

/-- Unsigned decimal parse of a nonempty all-digit byte string. -/
def decNat (s : List Nat) : Option Nat :=
  s.foldl (fun acc c => acc.bind (fun a => (decDigit c).map (fun d => a * 10 + d)))
    (if s = [] then none else some 0)

/-- `big.Int.SetString(s, 10)`: optional sign then decimal digits. -/
def decStrToInt (s : List Nat) : Option Int :=
  match s with
  | 0x2d :: rest => (decNat rest).map (fun n => -(n : Int))
  | 0x2b :: rest => (decNat rest).map (fun n => (n : Int))
  | _ => (decNat s).map (fun n => (n : Int))

/-- One hex digit value (`encoding/hex` accepts both cases). -/
def hexDigitVal (c : Nat) : Option Nat :=
  if 0x30 ≤ c ∧ c ≤ 0x39 then some (c - 0x30)
  else if 0x61 ≤ c ∧ c ≤ 0x66 then some (c - 0x57)
  else if 0x41 ≤ c ∧ c ≤ 0x46 then some (c - 0x37)
  else none

/-- `hex.DecodeString`: fails on odd length or non-hex bytes. -/
def hexDecBytes : List Nat → Option (List Nat)
  | [] => some []
  | [_] => none
  | h :: l :: rest =>
    match hexDigitVal h, hexDigitVal l, hexDecBytes rest with
    | some a, some b2, some r => some ((a * 16 + b2) :: r)
    | _, _, _ => none

/-- Minimal big-endian magnitude bytes (`big.Int.Bytes`). -/
def natBytesBE : Nat → List Nat
  | 0 => []
  | n + 1 => natBytesBE ((n + 1) / 256) ++ [(n + 1) % 256]
decreasing_by exact Nat.div_lt_self (by omega) (by omega)

/-- Go standard-library pieces used by `FromJSONBytes`, as parameters:
`json.Number` conversions (`Float64` as IEEE bit pattern, `Int64`),
`time.Parse(RFC3339Nano)` and formatting, the `uint64(f)` path of
`numToUint64` for float tag numbers, the `$epoch` floor/round arithmetic
(from float64 bits to `(sec, nsec)`) and the reverse float encoding used
by `AppendTime`, base64 decoders, and `regexp.Compile` success. -/
structure FromLib where
  numFloatBits : List Nat → Option Nat
  numInt : List Nat → Option Int
  numFloatU64 : List Nat → Except Err Nat
  parseRFC3339 : List Nat → Option (Int × Int)
  fmtTime : Int × Int → List Nat
  epochFromF64 : Nat → Int × Int
  epochToF64Bits : Int × Int → Nat
  b64urlDec : List Nat → Option (List Nat)
  b64stdDec : List Nat → Option (List Nat)
  regexOK : List Nat → Bool

/-- `AppendNil` (`runtime/read_bytes.go`). -/
def AppendNil (b : List Nat) : List Nat := b ++ [makeByte majorTypeSimple simpleNull]

/-- `AppendBool` (`runtime/read_bytes.go`). -/
def AppendBool (b : List Nat) (val : Bool) : List Nat :=
  if val then b ++ [makeByte majorTypeSimple simpleTrue]
  else b ++ [makeByte majorTypeSimple simpleFalse]

/-- `AppendArrayHeader` (`runtime/read_bytes.go`). -/
def AppendArrayHeader (b : List Nat) (sz : Nat) : List Nat :=
  appendUintCore b majorTypeArray sz

/-- `AppendUint64` (`runtime/read_bytes.go`). -/
def AppendUint64 (b : List Nat) (u : Nat) : List Nat :=
  appendUintCore b majorTypeUint u

/-- `AppendTag` (`runtime/read_bytes.go`). -/
def AppendTag (b : List Nat) (tag : Nat) : List Nat :=
  appendUintCore b majorTypeTag tag

/-- `AppendTagged` (`runtime/read_bytes.go`). -/
def AppendTagged (b : List Nat) (tag : Nat) (value : List Nat) : List Nat :=
  AppendTag b tag ++ value

/-- `AppendRFC3339Time` (`runtime/read_bytes.go`): tag 0 then the
formatted text string. -/
def AppendRFC3339Time (L : FromLib) (b : List Nat) (t : Int × Int) : List Nat :=
  AppendString (AppendTag b tagDateTimeString) (L.fmtTime t)

/-- `AppendTime` (`runtime/read_bytes.go`): tag 1 then the epoch as int64
when the nanoseconds are zero, else as float64. -/
def AppendTime (L : FromLib) (b : List Nat) (t : Int × Int) : List Nat :=
  let b1 := AppendTag b tagEpochDateTime
  if t.2 = 0 then AppendInt64 b1 t.1
  else AppendFloat64 b1 (L.epochToF64Bits t)

/-- `AppendBigInt` (`runtime/read_bytes.go`) for a non-nil `big.Int`. -/
def AppendBigInt (b : List Nat) (z : Int) : List Nat :=
  if 0 ≤ z then AppendBytes (AppendTag b tagPosBignum) (natBytesBE z.toNat)
  else AppendBytes (AppendTag b tagNegBignum) (natBytesBE (-z - 1).toNat)

/-- `appendCBORIntegerFromBigInt` (`runtime/read_bytes.go`) for a non-nil
`big.Int`: shortest CBOR integer, else bignum. -/
def appendCBORIntegerFromBigInt (b : List Nat) (z : Int) : List Nat :=
  if 0 ≤ z ∧ z.natAbs < 2 ^ 64 then AppendUint64 b z.toNat
  else if z < 0 ∧ z.natAbs ≤ 2 ^ 63 then AppendInt64 b z
  else AppendBigInt b z

/-- `AppendDecimalFraction` (`runtime/read_bytes.go`). -/
def AppendDecimalFraction (b : List Nat) (exp : Int) (mant : Int) : List Nat :=
  appendCBORIntegerFromBigInt
    (AppendInt64 (AppendArrayHeader (AppendTag b tagDecimalFrac) 2) exp) mant

/-- `AppendBigfloat` (`runtime/read_bytes.go`). -/
def AppendBigfloat (b : List Nat) (exp : Int) (mant : Int) : List Nat :=
  appendCBORIntegerFromBigInt
    (AppendInt64 (AppendArrayHeader (AppendTag b tagBigfloat) 2) exp) mant

/-- `AppendBase64URL` (`runtime/read_bytes.go`): tag 21 + byte string. -/
def AppendBase64URL (b : List Nat) (data : List Nat) : List Nat :=
  AppendBytes (AppendTag b tagBase64URL) data

/-- `AppendBase64` (`runtime/read_bytes.go`): tag 22 + byte string. -/
def AppendBase64 (b : List Nat) (data : List Nat) : List Nat :=
  AppendBytes (AppendTag b tagBase64) data

/-- `AppendBase16` (`runtime/read_bytes.go`): tag 23 + byte string. -/
def AppendBase16 (b : List Nat) (data : List Nat) : List Nat :=
  AppendBytes (AppendTag b tagBase16) data

/-- `AppendEmbeddedCBOR` (`runtime/read_bytes.go`): tag 24 + byte string. -/
def AppendEmbeddedCBOR (b : List Nat) (payload : List Nat) : List Nat :=
  AppendBytes (AppendTag b tagCBOR) payload

/-- `AppendURI` (`runtime/read_bytes.go`): tag 32 + text string. -/
def AppendURI (b : List Nat) (uri : List Nat) : List Nat :=
  AppendString (AppendTag b tagURI) uri

/-- `AppendBase64URLString` (`runtime/read_bytes.go`): tag 33 + text. -/
def AppendBase64URLString (b : List Nat) (s : List Nat) : List Nat :=
  AppendString (AppendTag b tagBase64URLString) s

/-- `AppendBase64String` (`runtime/read_bytes.go`): tag 34 + text. -/
def AppendBase64String (b : List Nat) (s : List Nat) : List Nat :=
  AppendString (AppendTag b tagBase64String) s

/-- `AppendRegexpString` (`runtime/read_bytes.go`): tag 35 + text. -/
def AppendRegexpString (b : List Nat) (re : List Nat) : List Nat :=
  AppendString (AppendTag b tagRegexp) re

/-- `AppendMIMEString` (`runtime/read_bytes.go`): tag 36 + text. -/
def AppendMIMEString (b : List Nat) (s : List Nat) : List Nat :=
  AppendString (AppendTag b tagMIME) s

/-- `AppendUUID` (`runtime/read_bytes.go`): tag 37 + 16-byte string. -/
def AppendUUID (b : List Nat) (u : List Nat) : List Nat :=
  AppendBytes (AppendTag b 37) u

/-- `AppendSelfDescribeCBOR` (`runtime/read_bytes.go`). -/
def AppendSelfDescribeCBOR (b : List Nat) : List Nat :=
  appendUintCore b majorTypeTag tagSelfDescribeCBOR

/-- `numToUint64` (`runtime/json_from.go`) on decoder-produced values
(`json.Number`; the `float64`/`int64`/`int` arms are unreachable from
`FromJSONBytes`): float path via the `FromLib` parameter, int path via
`Int64` with the negativity check. -/
def numToUint64 (L : FromLib) : JVal → Except Err Nat
  | .jnum s =>
    if containsDotEE s then L.numFloatU64 s
    else
      match L.numInt s with
      | none => .error (.other "int64 parse error")
      | some i =>
        if i < 0 then .error (.other "cbor: negative tag")
        else .ok i.toNat
  | _ => .error (.other "cbor: expected numeric tag")

/-- `anyToInt64` (`runtime/json_from.go`) on decoder-produced values. -/
def anyToInt64 (L : FromLib) : JVal → Except Err Int
  | .jnum s =>
    match L.numInt s with
    | none => .error (.other "int64 parse error")
    | some i => .ok i
  | _ => .error (.other "cbor: expected integer")

mutual
/-- `jsonToCBOR` (`runtime/json_from.go`); the fuel only bounds the Lean
recursion, `uint32(n)` is `n % 2^32`. -/
def jsonToCBORF (L : FromLib) : Nat → List Nat → JVal → Except Err (List Nat)
  | 0, _, _ => .error .outOfFuel
  | fuel + 1, b, v =>
    match v with
    | .jnull => .ok (AppendNil b)
    | .jbool x => .ok (AppendBool b x)
    | .jnum s =>
      if containsDotEE s then
        match L.numFloatBits s with
        | none => .error (.other "float64 parse error")
        | some bits => .ok (AppendFloat64 b bits)
      else
        match L.numInt s with
        | some i => .ok (AppendInt64 b i)
        | none =>
          match L.numFloatBits s with
          | none => .error (.other "float64 parse error")
          | some bits => .ok (AppendFloat64 b bits)
    | .jstr s => .ok (AppendString b s)
    | .jarr xs =>
      xs.foldl
        (fun acc e =>
          match acc with
          | .error er => .error er
          | .ok bb => jsonToCBORF L fuel bb e)
        (.ok (AppendArrayHeader b (xs.length % 2 ^ 32)))
    | .jobj fields =>
      match tryWrapperF L fuel b fields with
      | some r => r
      | none =>
        fields.foldl
          (fun acc kv =>
            match acc with
            | .error er => .error er
            | .ok bb => jsonToCBORF L fuel (AppendString bb kv.1) kv.2)
          (.ok (AppendMapHeader b (fields.length % 2 ^ 32)))
termination_by fuel _ _ => 2 * fuel + 1

/-- `tryWrapper` (`runtime/json_from.go`): `none` models `ok = false`
(not a wrapper), `some r` models `ok = true` with `r` the
result-or-error; the key tests are Go map lookups in source order. -/
def tryWrapperF (L : FromLib) : Nat → List Nat → List (List Nat × JVal) →
    Option (Except Err (List Nat))
  | fuel, b, m =>
    match jlookup m (lit "$tag") with
    | some tagv =>
      some (match jlookup m (lit "$") with
        | none => .error (.other "cbor: $tag wrapper missing $ field")
        | some iv =>
          match numToUint64 L tagv with
          | .error e => .error e
          | .ok tag =>
            match jsonToCBORF L fuel [] iv with
            | .error e => .error e
            | .ok inner => .ok (AppendTagged b tag inner))
    | none =>
    match jlookup m (lit "$rfc3339") with
    | some v =>
      some (if asString v = [] then .error (.other "cbor: $rfc3339 expects string")
        else match L.parseRFC3339 (asString v) with
          | none => .error (.other "time parse error")
          | some t => .ok (AppendRFC3339Time L b t))
    | none =>
    match jlookup m (lit "$epoch") with
    | some v =>
      some (match v with
        | .jnum s =>
          match L.numFloatBits s with
          | none => .error (.other "float64 parse error")
          | some bits => .ok (AppendTime L b (L.epochFromF64 bits))
        | _ => .error (.other "cbor: $epoch expects number"))
    | none =>
    match jlookup m (lit "$decimal") with
    | some v =>
      some (match v with
        | .jarr [a0, a1] =>
          (match anyToInt64 L a0 with
            | .error e => .error e
            | .ok exp =>
              match a1 with
              | .jstr ms =>
                (match decStrToInt ms with
                  | none => .error (.other "cbor: invalid $decimal mantissa")
                  | some z => .ok (AppendDecimalFraction b exp z))
              | _ => .error (.other "cbor: $decimal mantissa must be string"))
        | _ => .error (.other "cbor: $decimal expects [exp, mant]"))
    | none =>
    match jlookup m (lit "$bigfloat") with
    | some v =>
      some (match v with
        | .jarr [a0, a1] =>
          (match anyToInt64 L a0 with
            | .error e => .error e
            | .ok exp =>
              match a1 with
              | .jstr ms =>
                (match decStrToInt ms with
                  | none => .error (.other "cbor: invalid $bigfloat mantissa")
                  | some z => .ok (AppendBigfloat b exp z))
              | _ => .error (.other "cbor: $bigfloat mantissa must be string"))
        | _ => .error (.other "cbor: $bigfloat expects [exp, mant]"))
    | none =>
    match jlookup m (lit "$base64url") with
    | some v =>
      some (match L.b64urlDec (asString v) with
        | none => .error (.other "base64 decode error")
        | some bs => .ok (AppendBase64URL b bs))
    | none =>
    match jlookup m (lit "$base64") with
    | some v =>
      some (match L.b64stdDec (asString v) with
        | none => .error (.other "base64 decode error")
        | some bs => .ok (AppendBase64 b bs))
    | none =>
    match jlookup m (lit "$base16") with
    | some v =>
      some (match hexDecBytes (asString v) with
        | none => .error (.other "hex decode error")
        | some bs => .ok (AppendBase16 b bs))
    | none =>
    match jlookup m (lit "$cbor") with
    | some v =>
      some (match L.b64stdDec (asString v) with
        | none => .error (.other "base64 decode error")
        | some bs => .ok (AppendEmbeddedCBOR b bs))
    | none =>
    match jlookup m (lit "$uri") with
    | some v =>
      some (if asString v = [] then .error (.other "cbor: $uri expects string")
        else .ok (AppendURI b (asString v)))
    | none =>
    match jlookup m (lit "$base64urlstr") with
    | some v => some (.ok (AppendBase64URLString b (asString v)))
    | none =>
    match jlookup m (lit "$base64str") with
    | some v => some (.ok (AppendBase64String b (asString v)))
    | none =>
    match jlookup m (lit "$regex") with
    | some v =>
      some (if asString v = [] then .error (.other "cbor: $regex expects string")
        else if ¬ L.regexOK (asString v) then .error (.other "regexp compile error")
        else .ok (AppendRegexpString b (asString v)))
    | none =>
    match jlookup m (lit "$mime") with
    | some v =>
      some (if asString v = [] then .error (.other "cbor: $mime expects string")
        else .ok (AppendMIMEString b (asString v)))
    | none =>
    match jlookup m (lit "$uuid") with
    | some v =>
      some (if (asString v).length ≠ 36 then
          .error (.other "cbor: $uuid expects canonical string")
        else match hexDecBytes ((asString v).filter (fun c => c ≠ 0x2d)) with
          | none => .error (.other "cbor: invalid $uuid")
          | some bs =>
            if bs.length ≠ 16 then .error (.other "cbor: invalid $uuid")
            else .ok (AppendUUID b bs))
    | none =>
    match jlookup m (lit "$selfdescribe") with
    | some v =>
      some (match v with
        | .jbool true => .ok (AppendSelfDescribeCBOR b)
        | _ => .error (.other "cbor: $selfdescribe expects true"))
    | none => none
termination_by fuel _ _ => 2 * fuel + 2
end

/-- The closed wrapper-key set of `tryWrapper`, in source check order. -/
def wrapperKeys : List (List Nat) :=
  [lit "$tag", lit "$rfc3339", lit "$epoch", lit "$decimal", lit "$bigfloat",
   lit "$base64url", lit "$base64", lit "$base16", lit "$cbor", lit "$uri",
   lit "$base64urlstr", lit "$base64str", lit "$regex", lit "$mime",
   lit "$uuid", lit "$selfdescribe"]

/-- Modelled from the spec: an object is recognized as a wrapper when any
key of the closed wrapper set is present (regardless of other keys). -/
def wrapperKeyPresent (m : List (List Nat × JVal)) : Bool :=
  wrapperKeys.any (fun k => (jlookup m k).isSome)

/-- A concrete `FromLib` instantiation used only to evaluate the
converter on closed inputs: integer parsing is the concrete decimal
parser, floats never parse, times are fixed markers, and the base64
decoders are identity. -/
def stubFromLib : FromLib where
  numFloatBits := fun _ => none
  numInt := decStrToInt
  numFloatU64 := fun _ => .error (.other "float64 parse error")
  parseRFC3339 := fun _ => some (0, 0)
  fmtTime := fun _ => [0x54]
  epochFromF64 := fun _ => (0, 0)
  epochToF64Bits := fun _ => 0
  b64urlDec := fun s => some s
  b64stdDec := fun s => some s
  regexOK := fun _ => true

-- ===================== Theorems =====================

@[simp] theorem getAddInfo_eq (b : Nat) : getAddInfo b = b % 32 := by
  have := Nat.and_pow_two_sub_one_eq_mod b 5
  norm_num at this
  simpa [getAddInfo] using this

@[simp] theorem getMajorType_eq (b : Nat) : getMajorType b = b / 32 % 8 := by
  have h1 := Nat.shiftRight_eq_div_pow b 5
  have h2 := Nat.and_pow_two_sub_one_eq_mod (b / 32) 3
  norm_num at h1 h2
  simp [getMajorType, h1, h2]


theorem bePut_length (n u : Nat) : (bePut n u).length = n := by
  induction n generalizing u with
  | zero => rfl
  | succ n ih => simp [bePut, ih]

theorem beUint_foldl (n u acc : Nat) (h : u < 256 ^ n) :
    (bePut n u).foldl (fun a b => a * 256 + b) acc = acc * 256 ^ n + u := by
  induction n generalizing u acc with
  | zero =>
    simp [bePut]
    omega
  | succ n ih =>
    have hdiv : u / 256 < 256 ^ n := by
      rw [Nat.div_lt_iff_lt_mul (by norm_num)]
      calc u < 256 ^ (n + 1) := h
        _ = 256 ^ n * 256 := by ring
    simp only [bePut, List.foldl_append, List.foldl_cons, List.foldl_nil]
    rw [ih _ _ hdiv]
    have : u % 256 + 256 * (u / 256) = u := Nat.mod_add_div u 256
    ring_nf
    omega

theorem beUint_bePut (n u : Nat) (h : u < 256 ^ n) : beUint (bePut n u) = u := by
  have := beUint_foldl n u 0 h
  simpa [beUint] using this

theorem makeByte_zero (a : Nat) : makeByte 0 a = a := by
  simp [makeByte, Nat.shiftLeft_eq]

theorem lor_mul32 : ∀ m < 8, ∀ a < 32, (m <<< 5) ||| a = 32 * m + a := by decide

theorem makeByte_one (a : Nat) (h : a < 32) : makeByte 1 a = 32 + a := by
  have := lor_mul32 1 (by norm_num) a h
  simpa [makeByte] using this

theorem AppendInt64_eq_core_nonneg (b : List Nat) (i : Int) (h : 0 ≤ i) :
    AppendInt64 b i = appendUintCore b majorTypeUint i.toNat := by
  unfold AppendInt64 appendUintCore addInfoDirect
  split_ifs with h1 h2 h3 <;> first
  | rfl
  | omega

theorem AppendInt64_eq_core_neg (b : List Nat) (i : Int) (h : i < 0) :
    AppendInt64 b i = appendUintCore b majorTypeNegInt (-1 - i).toNat := by
  unfold AppendInt64 appendUintCore addInfoDirect
  split_ifs with h1 h2 h3 h4 <;> first
  | rfl
  | omega

theorem appendUintCore_length (b : List Nat) (major u : Nat) :
    (appendUintCore b major u).length = b.length + canonicalHeaderWidth u := by
  unfold appendUintCore canonicalHeaderWidth addInfoDirect
  split_ifs <;> simp [bePut_length] <;> omega

theorem take_bePut (n u : Nat) : (bePut n u).take n = bePut n u :=
  List.take_of_length_le (by rw [bePut_length])

theorem drop_bePut (n u : Nat) : (bePut n u).drop n = [] :=
  List.drop_eq_nil_of_le (by rw [bePut_length])

theorem ReadInt64_core_uint (u : Nat) (h : u ≤ 2 ^ 63 - 1) :
    ReadInt64Bytes (appendUintCore [] majorTypeUint u) = .ok ((u : Int), []) := by
  unfold appendUintCore addInfoDirect majorTypeUint addInfoUint8 addInfoUint16 addInfoUint32 addInfoUint64
  split_ifs with h1 h2 h3 h4
  · simp only [List.nil_append, makeByte_zero, ReadInt64Bytes]
    rw [if_pos (by omega : u ≤ 0x17)]
  · have hu : u % 256 = u := Nat.mod_eq_of_lt (by omega)
    simp only [List.nil_append, makeByte_zero, bePut, List.nil_append, hu, ReadInt64Bytes]
    norm_num
  · simp only [List.nil_append, makeByte_zero, ReadInt64Bytes, List.cons_append,
      List.nil_append, bePut_length, take_bePut, drop_bePut, beUint_bePut 2 u (by omega)]
    norm_num
  · simp only [List.nil_append, makeByte_zero, ReadInt64Bytes, List.cons_append,
      List.nil_append, bePut_length, take_bePut, drop_bePut, beUint_bePut 4 u (by omega)]
    norm_num
  · simp only [List.nil_append, makeByte_zero, ReadInt64Bytes, List.cons_append,
      List.nil_append, bePut_length, take_bePut, drop_bePut, beUint_bePut 8 u (by omega)]
    norm_num
    omega

theorem ReadInt64_core_neg (n : Nat) (h : n ≤ 2 ^ 63 - 1) :
    ReadInt64Bytes (appendUintCore [] majorTypeNegInt n) = .ok (-1 - (n : Int), []) := by
  unfold appendUintCore addInfoDirect majorTypeNegInt addInfoUint8 addInfoUint16 addInfoUint32 addInfoUint64
  split_ifs with h1 h2 h3 h4
  · rw [makeByte_one n (by omega)]
    simp only [List.nil_append, ReadInt64Bytes]
    rw [if_neg (by omega), if_neg (by omega), if_neg (by omega), if_neg (by omega),
      if_neg (by omega), if_pos (by constructor <;> omega)]
    have hn : 32 + n - 0x20 = n := by omega
    rw [hn]
  · have hu : n % 256 = n := Nat.mod_eq_of_lt (by omega)
    have hm : makeByte 1 24 = 0x38 := rfl
    simp only [List.nil_append, hm, bePut, List.nil_append, hu, ReadInt64Bytes]
    norm_num
  · have hm : makeByte 1 25 = 0x39 := rfl
    simp only [List.nil_append, hm, ReadInt64Bytes, List.cons_append, List.nil_append,
      bePut_length, take_bePut, drop_bePut, beUint_bePut 2 n (by omega)]
    norm_num
  · have hm : makeByte 1 26 = 0x3a := rfl
    simp only [List.nil_append, hm, ReadInt64Bytes, List.cons_append, List.nil_append,
      bePut_length, take_bePut, drop_bePut, beUint_bePut 4 n (by omega)]
    norm_num
  · have hm : makeByte 1 27 = 0x3b := rfl
    simp only [List.nil_append, hm, ReadInt64Bytes, List.cons_append, List.nil_append,
      bePut_length, take_bePut, drop_bePut, beUint_bePut 8 n (by omega)]
    norm_num
    omega

/-- C1: `appendUintCore` writes the canonical shortest header for every uint64
(`u≤23` in 1 byte, `≤255` in 2, `≤65535` in 3, `≤2^32-1` in 5, else 9), and
`AppendInt64` routes non-negative `i` through major type 0 and negative `i`
through major type 1 with argument `n = -1-i`, so it produces the same widths;
the eight calibration encodings 0→00, 23→17, 24→1818, 255→18ff, 256→190100,
-1→20, -24→37, -25→3818 hold. -/
theorem C1_canonical_header_widths :
    (∀ (b : List Nat) (major u : Nat), u < 2 ^ 64 →
      (appendUintCore b major u).length = b.length + canonicalHeaderWidth u) ∧
    (∀ (b : List Nat) (i : Int), 0 ≤ i → i < 2 ^ 63 →
      AppendInt64 b i = appendUintCore b majorTypeUint i.toNat ∧
      (AppendInt64 b i).length = b.length + canonicalHeaderWidth i.toNat) ∧
    (∀ (b : List Nat) (i : Int), -(2 ^ 63) ≤ i → i < 0 →
      AppendInt64 b i = appendUintCore b majorTypeNegInt (-1 - i).toNat ∧
      (AppendInt64 b i).length = b.length + canonicalHeaderWidth (-1 - i).toNat) ∧
    AppendInt64 [] 0 = [0x00] ∧ AppendInt64 [] 23 = [0x17] ∧
    AppendInt64 [] 24 = [0x18, 0x18] ∧ AppendInt64 [] 255 = [0x18, 0xff] ∧
    AppendInt64 [] 256 = [0x19, 0x01, 0x00] ∧ AppendInt64 [] (-1) = [0x20] ∧
    AppendInt64 [] (-24) = [0x37] ∧ AppendInt64 [] (-25) = [0x38, 0x18] := by
  refine ⟨fun b major u _ => appendUintCore_length b major u,
    fun b i h1 _ => ⟨AppendInt64_eq_core_nonneg b i h1, ?_⟩,
    fun b i _ h2 => ⟨AppendInt64_eq_core_neg b i h2, ?_⟩,
    by decide, by decide, by decide, by decide, by decide, by decide, by decide, by decide⟩
  · rw [AppendInt64_eq_core_nonneg b i h1]
    exact appendUintCore_length b majorTypeUint i.toNat
  · rw [AppendInt64_eq_core_neg b i h2]
    exact appendUintCore_length b majorTypeNegInt (-1 - i).toNat

theorem C1_canonical_header_widths_witness :
    (appendUintCore [] 5 300).length = ([] : List Nat).length + canonicalHeaderWidth 300 ∧
    AppendInt64 [] 500 = appendUintCore [] majorTypeUint (500 : Int).toNat ∧
    AppendInt64 [] (-500) = appendUintCore [] majorTypeNegInt ((-1 : Int) - (-500)).toNat :=
  ⟨(C1_canonical_header_widths.1) [] 5 300 (by norm_num),
   ((C1_canonical_header_widths.2.1) [] 500 (by norm_num) (by norm_num)).1,
   ((C1_canonical_header_widths.2.2.1) [] (-500) (by norm_num) (by norm_num)).1⟩

/-- C2: for every int64 value `i`, appending `i` with `AppendInt64` to an empty
buffer and decoding with `ReadInt64Bytes` succeeds, returns exactly `i`, and
leaves an empty remainder. -/
theorem C2_AppendInt64_ReadInt64Bytes_roundtrip (i : Int)
    (h1 : -(2 ^ 63) ≤ i) (h2 : i < 2 ^ 63) :
    ReadInt64Bytes (AppendInt64 [] i) = .ok (i, []) := by
  rcases lt_or_le i 0 with hneg | hpos
  · rw [AppendInt64_eq_core_neg _ _ hneg, ReadInt64_core_neg _ (by omega)]
    have hc : ((-1 - i).toNat : Int) = -1 - i := Int.toNat_of_nonneg (by omega)
    rw [hc]
    ring_nf
  · rw [AppendInt64_eq_core_nonneg _ _ hpos, ReadInt64_core_uint _ (by omega)]
    rw [Int.toNat_of_nonneg hpos]

theorem C2_AppendInt64_ReadInt64Bytes_roundtrip_witness :
    ReadInt64Bytes (AppendInt64 [] (-300)) = .ok (-300, []) :=
  C2_AppendInt64_ReadInt64Bytes_roundtrip (-300) (by norm_num) (by norm_num)

theorem take_append_bePut (k u : Nat) (l : List Nat) : (bePut k u ++ l).take k = bePut k u :=
  List.take_left' (bePut_length k u)

theorem drop_append_bePut (k u : Nat) (l : List Nat) : (bePut k u ++ l).drop k = l :=
  List.drop_left' (bePut_length k u)

theorem and31_bytes : ∀ n < 32, (64 + n) &&& 31 = n := by decide

theorem and31_text : ∀ n < 32, (96 + n) &&& 31 = n := by decide

theorem makeByte_two (a : Nat) (h : a < 32) : makeByte 2 a = 64 + a := by
  have := lor_mul32 2 (by norm_num) a h
  simpa [makeByte] using this

theorem makeByte_three (a : Nat) (h : a < 32) : makeByte 3 a = 96 + a := by
  have := lor_mul32 3 (by norm_num) a h
  simpa [makeByte] using this

theorem ReadBytesBytes_AppendBytes (data : List Nat) (h : data.length ≤ 2 ^ 63 - 1) :
    ReadBytesBytes (AppendBytes [] data) [] = .ok (data, []) := by
  have h95 : makeByte majorTypeBytes addInfoIndefinite = 95 := rfl
  unfold AppendBytes appendUintCore addInfoDirect majorTypeBytes addInfoUint8 addInfoUint16 addInfoUint32 addInfoUint64
  split_ifs with h1 h2 h3 h4
  · rw [makeByte_two _ (by omega)]
    by_cases hz : data.length = 0
    · have hd : data = [] := List.length_eq_zero.mp hz
      subst hd
      simp [ReadBytesBytes, h95]
      rfl
    · simp only [List.nil_append, List.cons_append, ReadBytesBytes, h95]
      rw [if_neg (by omega), if_pos (by constructor <;> omega), and31_bytes _ (by omega)]
      simp only [List.length_cons]
      rw [if_neg (by omega), if_neg hz, List.take_length, List.drop_length]
  · have hm : makeByte 2 24 = 0x58 := rfl
    have hu : data.length % 256 = data.length := Nat.mod_eq_of_lt (by omega)
    simp only [List.nil_append, List.cons_append, hm, bePut, List.nil_append, hu, ReadBytesBytes, h95]
    rw [if_neg (by omega), if_neg (by omega), if_pos (by trivial)]
    rw [if_neg (by omega), if_neg (by omega), List.take_length, List.drop_length]
  · have hm : makeByte 2 25 = 0x59 := rfl
    simp only [List.nil_append, List.cons_append, hm, ReadBytesBytes, h95, take_append_bePut,
      drop_append_bePut, beUint_bePut 2 data.length (by omega), List.length_append, bePut_length,
      List.length_cons]
    rw [if_neg (by omega), if_neg (by omega), if_neg (by omega), if_pos (by trivial)]
    rw [if_neg (by omega), if_neg (by omega), if_neg (by omega), List.take_length, List.drop_length]
  · have hm : makeByte 2 26 = 0x5a := rfl
    simp only [List.nil_append, List.cons_append, hm, ReadBytesBytes, h95, take_append_bePut,
      drop_append_bePut, beUint_bePut 4 data.length (by omega), List.length_append, bePut_length,
      List.length_cons]
    rw [if_neg (by omega), if_neg (by omega), if_neg (by omega), if_neg (by omega),
      if_pos (by trivial)]
    rw [if_neg (by omega), if_neg (by omega), if_neg (by omega), List.take_length, List.drop_length]
  · have hm : makeByte 2 27 = 0x5b := rfl
    simp only [List.nil_append, List.cons_append, hm, ReadBytesBytes, h95, take_append_bePut,
      drop_append_bePut, beUint_bePut 8 data.length (by omega), List.length_append, bePut_length,
      List.length_cons]
    rw [if_neg (by omega), if_neg (by omega), if_neg (by omega), if_neg (by omega),
      if_neg (by omega), if_pos (by trivial)]
    rw [if_neg (by omega), if_neg (by omega), if_neg (by omega), if_neg (by omega),
      List.take_length, List.drop_length]

theorem ReadStringZC_AppendString (s : List Nat) (h : s.length ≤ 2 ^ 63 - 1) :
    ReadStringZC (AppendString [] s) = .ok (s, []) := by
  unfold AppendString appendUintCore addInfoDirect majorTypeText addInfoUint8 addInfoUint16 addInfoUint32 addInfoUint64
  split_ifs with h1 h2 h3 h4
  · rw [makeByte_three _ (by omega)]
    simp only [List.nil_append, List.cons_append, ReadStringZC]
    rw [if_pos (by constructor <;> omega), and31_text _ (by omega)]
    simp only [List.length_cons]
    rw [if_neg (by omega), List.take_length, List.drop_length]
  · have hm : makeByte 3 24 = 0x78 := rfl
    have hu : s.length % 256 = s.length := Nat.mod_eq_of_lt (by omega)
    simp only [List.nil_append, List.cons_append, hm, bePut, List.nil_append, hu, ReadStringZC]
    norm_num
    rw [if_neg (by omega), if_neg (by omega)]
    have hdrop : List.drop 2 ((120 :: [s.length]) ++ s) = s := List.drop_left' (by simp)
    simp only [List.cons_append, List.nil_append] at hdrop
    rw [← List.drop_drop, hdrop, List.drop_eq_nil_of_le (le_refl _)]
  · have hm : makeByte 3 25 = 0x79 := rfl
    simp only [List.nil_append, List.cons_append, hm, ReadStringZC, take_append_bePut,
      beUint_bePut 2 s.length (by omega), List.length_append, bePut_length, List.length_cons]
    norm_num
    rw [if_neg (by omega), if_neg (by omega)]
    have hdrop : List.drop 3 ((121 :: bePut 2 s.length) ++ s) = s :=
      List.drop_left' (by simp [bePut_length])
    simp only [List.cons_append] at hdrop
    rw [drop_append_bePut, List.take_length, ← List.drop_drop, hdrop,
      List.drop_eq_nil_of_le (le_refl _)]
  · have hm : makeByte 3 26 = 0x7a := rfl
    simp only [List.nil_append, List.cons_append, hm, ReadStringZC, take_append_bePut,
      beUint_bePut 4 s.length (by omega), List.length_append, bePut_length, List.length_cons]
    norm_num
    rw [if_neg (by omega), if_neg (by omega)]
    have hdrop : List.drop 5 ((122 :: bePut 4 s.length) ++ s) = s :=
      List.drop_left' (by simp [bePut_length])
    simp only [List.cons_append] at hdrop
    rw [drop_append_bePut, List.take_length, ← List.drop_drop, hdrop,
      List.drop_eq_nil_of_le (le_refl _)]
  · have hm : makeByte 3 27 = 0x7b := rfl
    simp only [List.nil_append, List.cons_append, hm, ReadStringZC, take_append_bePut,
      beUint_bePut 8 s.length (by omega), List.length_append, bePut_length, List.length_cons]
    norm_num
    split
    next heq =>
      rw [if_neg (by omega)] at heq
      exact absurd heq (by simp)
    next sz start heq =>
      rw [if_neg (by omega)] at heq
      simp only [Except.ok.injEq, Prod.mk.injEq] at heq
      obtain ⟨hsz, hstart⟩ := heq
      subst hsz hstart
      rw [if_neg (by omega), if_neg (by omega)]
      have hdrop : List.drop 9 ((123 :: bePut 8 s.length) ++ s) = s :=
        List.drop_left' (by simp [bePut_length])
      simp only [List.cons_append] at hdrop
      rw [hdrop, List.take_length, ← List.drop_drop, hdrop,
        List.drop_eq_nil_of_le (le_refl _)]

theorem AppendString_head (s : List Nat) :
    ∃ lead rest, AppendString [] s = lead :: rest ∧ lead ≠ 127 := by
  unfold AppendString appendUintCore addInfoDirect
  split_ifs with h1 h2 h3 h4
  · exact ⟨makeByte majorTypeText s.length, s, by simp,
      by rw [show majorTypeText = 3 from rfl, makeByte_three _ (by omega)]; omega⟩
  · exact ⟨0x78, bePut 1 s.length ++ s, by simp; rfl, by omega⟩
  · exact ⟨0x79, bePut 2 s.length ++ s, by simp; rfl, by omega⟩
  · exact ⟨0x7a, bePut 4 s.length ++ s, by simp; rfl, by omega⟩
  · exact ⟨0x7b, bePut 8 s.length ++ s, by simp; rfl, by omega⟩

theorem ReadStringBytes_AppendString (s : List Nat) (h : s.length ≤ 2 ^ 63 - 1)
    (hu : isUTF8Valid s = true) :
    ReadStringBytes (AppendString [] s) = .ok (s, []) := by
  obtain ⟨lead, rest, hb, hne⟩ := AppendString_head s
  have h127 : makeByte majorTypeText addInfoIndefinite = 127 := rfl
  rw [hb]
  simp only [ReadStringBytes, h127]
  rw [if_neg hne, ← hb, ReadStringZC_AppendString s h]
  simp [ValidateUTF8OnDecode, hu]

theorem canonicalHeaderWidth_pos (u : Nat) : 1 ≤ canonicalHeaderWidth u := by
  unfold canonicalHeaderWidth
  split_ifs <;> omega

theorem AppendBytes_length (data : List Nat) :
    (AppendBytes [] data).length = canonicalHeaderWidth data.length + data.length := by
  unfold AppendBytes
  simp [appendUintCore_length]

theorem AppendString_length (s : List Nat) :
    (AppendString [] s).length = canonicalHeaderWidth s.length + s.length := by
  unfold AppendString
  simp [appendUintCore_length]

/-- C10: the max-container limit is enforced only on array and map headers:
for every limit `L > 0` and every definite-length byte string or text string
of length `n > L`, `Reader.ReadBytes` and `Reader.ReadString` succeed (no
container-too-large error), even though `SetMaxContainerLen` is documented as
covering byte strings and text strings. -/
theorem C10_maxContainer_not_enforced_on_strings (L : Nat) (content : List Nat)
    (hL : 0 < L) (hn : L < content.length) (hlen : content.length ≤ 2 ^ 63 - 1) :
    Reader.ReadBytes ⟨AppendBytes [] content, false, false, L⟩
      = (.ok content, ⟨[], false, false, L⟩) ∧
    (isUTF8Valid content = true →
      Reader.ReadString ⟨AppendString [] content, false, false, L⟩
        = (.ok content, ⟨[], false, false, L⟩)) := by
  constructor
  · have hlen1 : ¬ (AppendBytes [] content).length < 1 := by
      rw [AppendBytes_length]
      have := canonicalHeaderWidth_pos content.length
      omega
    simp only [Reader.ReadBytes]
    rw [if_neg hlen1]
    simp only [Reader.strictLengthCheck]
    norm_num
    rw [ReadBytesBytes_AppendBytes content hlen]
  · intro hu
    have hlen1 : ¬ (AppendString [] content).length < 1 := by
      rw [AppendString_length]
      have := canonicalHeaderWidth_pos content.length
      omega
    simp only [Reader.ReadString]
    rw [if_neg hlen1]
    simp only [Reader.strictLengthCheck]
    norm_num
    rw [ReadStringBytes_AppendString content hlen hu]

theorem C10_maxContainer_not_enforced_on_strings_witness :
    Reader.ReadBytes ⟨AppendBytes [] [1, 2, 3], false, false, 2⟩
      = (.ok [1, 2, 3], ⟨[], false, false, 2⟩) ∧
    Reader.ReadString ⟨AppendString [] [0x61, 0x62, 0x63], false, false, 2⟩
      = (.ok [0x61, 0x62, 0x63], ⟨[], false, false, 2⟩) :=
  ⟨(C10_maxContainer_not_enforced_on_strings 2 [1, 2, 3] (by norm_num) (by norm_num)
      (by norm_num)).1,
   (C10_maxContainer_not_enforced_on_strings 2 [0x61, 0x62, 0x63] (by norm_num) (by norm_num)
      (by norm_num)).2 (by decide)⟩

theorem isNonCanonicalLength_ne_nil (m : Nat) (h : isNonCanonicalLength [] m = .ok true) :
    False := by
  simp [isNonCanonicalLength] at h

/-- C7: with strict mode enabled, a length or integer header in non-minimal
width makes the reader return the non-canonical-length error and leave the
cursor unadvanced (array and map headers and int64 reads); on hex `9802`
strict `ReadArrayHeader` errors, while without strict mode it returns size 2. -/
theorem C7_strict_nonCanonicalLength :
    (∀ (buf : List Nat) (det : Bool) (mc : Nat),
      isNonCanonicalLength buf majorTypeArray = .ok true →
      Reader.ReadArrayHeader ⟨buf, true, det, mc⟩
        = (.error .nonCanonicalLength, ⟨buf, true, det, mc⟩)) ∧
    (∀ (buf : List Nat) (det : Bool) (mc : Nat),
      isNonCanonicalLength buf majorTypeMap = .ok true →
      Reader.ReadMapHeader ⟨buf, true, det, mc⟩
        = (.error .nonCanonicalLength, ⟨buf, true, det, mc⟩)) ∧
    (∀ (lead : Nat) (rest : List Nat) (det : Bool) (mc : Nat),
      (getMajorType lead = majorTypeUint ∨ getMajorType lead = majorTypeNegInt) →
      isNonCanonicalLength (lead :: rest) (getMajorType lead) = .ok true →
      Reader.ReadInt64 ⟨lead :: rest, true, det, mc⟩
        = (.error .nonCanonicalLength, ⟨lead :: rest, true, det, mc⟩)) ∧
    Reader.ReadArrayHeader ⟨[0x98, 0x02], true, false, 0⟩
      = (.error .nonCanonicalLength, ⟨[0x98, 0x02], true, false, 0⟩) ∧
    Reader.ReadArrayHeader ⟨[0x98, 0x02], false, false, 0⟩
      = (.ok 2, ⟨[], false, false, 0⟩) := by
  refine ⟨?_, ?_, ?_, by rfl, by rfl⟩
  · intro buf det mc hnc
    match hb : buf with
    | [] => exact absurd hnc (by simp [isNonCanonicalLength])
    | lead :: rest =>
      simp only [Reader.ReadArrayHeader, Reader.strictLengthCheck]
      rw [if_neg (by simp)]
      simp only [if_pos rfl, hnc, if_true]
  · intro buf det mc hnc
    match hb : buf with
    | [] => exact absurd hnc (by simp [isNonCanonicalLength])
    | lead :: rest =>
      simp only [Reader.ReadMapHeader, Reader.strictLengthCheck]
      rw [if_neg (by simp)]
      simp only [if_pos rfl, hnc, if_true]
  · intro lead rest det mc hmaj hnc
    simp only [Reader.ReadInt64]
    rw [if_pos ⟨trivial, hmaj⟩]
    simp only [hnc, if_true]

theorem C7_strict_nonCanonicalLength_witness :
    Reader.ReadMapHeader ⟨[0xb8, 0x05], true, false, 0⟩
      = (.error .nonCanonicalLength, ⟨[0xb8, 0x05], true, false, 0⟩) ∧
    Reader.ReadInt64 ⟨[0x18, 0x05], true, false, 0⟩
      = (.error .nonCanonicalLength, ⟨[0x18, 0x05], true, false, 0⟩) :=
  ⟨C7_strict_nonCanonicalLength.2.1 [0xb8, 0x05] false 0 (by rfl),
   C7_strict_nonCanonicalLength.2.2.1 0x18 [0x05] false 0 (Or.inl (by rfl)) (by rfl)⟩

/-- C3 (code bug): on input `f8 ff` — the two-byte encoding of simple value
255, well-formed per RFC 8949 and accepted by `validateWellFormed`'s explicit
`addInfoUint8` case — `skip`'s major-type-7 switch has no `addInfoUint8` case
and returns unsupported-type.  So `ValidateWellFormedBytes(b) = ok` does not
imply `Skip(b) = ok`. -/
theorem C3_validate_ok_but_skip_fails :
    ValidateWellFormedBytes [0xf8, 0xff] = .ok [] ∧
    Skip [0xf8, 0xff] = .error .unsupportedType := by
  constructor
  · simp +decide [ValidateWellFormedBytes, validateWellFormedF, readUintCore, makeByte,
      majorTypeUint, majorTypeNegInt, majorTypeBytes, majorTypeText, majorTypeArray,
      majorTypeMap, majorTypeTag, majorTypeSimple, addInfoDirect, addInfoUint8, addInfoUint16,
      addInfoUint32, addInfoUint64, addInfoIndefinite, simpleFalse, simpleTrue, simpleNull,
      simpleUndefined, simpleFloat16, simpleFloat32, simpleFloat64, simpleBreak, recursionLimit]
  · simp +decide [Skip, skipF, readUintCore, makeByte,
      majorTypeUint, majorTypeNegInt, majorTypeBytes, majorTypeText, majorTypeArray,
      majorTypeMap, majorTypeTag, majorTypeSimple, addInfoDirect, addInfoUint8, addInfoUint16,
      addInfoUint32, addInfoUint64, addInfoIndefinite, simpleFalse, simpleTrue, simpleNull,
      simpleUndefined, simpleFloat16, simpleFloat32, simpleFloat64, simpleBreak, recursionLimit]

theorem seen_step_iff (key : List Nat) (keys : List (List Nat)) (seen : List (List Nat))
    (hmem : key ∉ seen) :
    ((key :: keys).Nodup ∧ ∀ k ∈ key :: keys, k ∉ seen) ↔
    (keys.Nodup ∧ ∀ k ∈ keys, k ∉ key :: seen) := by
  simp only [List.nodup_cons, List.mem_cons]
  constructor
  · rintro ⟨⟨hni, hnd⟩, hall⟩
    refine ⟨hnd, fun k hk hmem2 => ?_⟩
    rcases hmem2 with rfl | hmem2
    · exact hni hk
    · exact hall k (Or.inr hk) hmem2
  · rintro ⟨hnd, hall⟩
    refine ⟨⟨fun hin => hall key hin (by simp), hnd⟩, ?_⟩
    rintro k (rfl | hk)
    · exact hmem
    · intro hks
      exact hall k hk (by simp [hks])

theorem readMapNoDupIndefF_spec : ∀ (fuel : Nat) (p : List Nat)
    (es : List (List Nat × List Nat)) (rest : List Nat),
    mapEntriesIndefF fuel p = .ok (es, rest) →
    ∀ seen, readMapNoDupIndefF fuel seen p =
      if (es.map Prod.fst).Nodup ∧ (∀ k ∈ es.map Prod.fst, k ∉ seen) then .ok rest
      else .error .duplicateMapKey := by
  intro fuel
  induction fuel with
  | zero =>
    intro p es rest h
    simp [mapEntriesIndefF] at h
  | succ fuel ih =>
    intro p es rest h seen
    match p with
    | [] => simp [mapEntriesIndefF] at h
    | c :: r =>
      by_cases hbrk : c = makeByte majorTypeSimple simpleBreak
      · simp only [mapEntriesIndefF, if_pos hbrk, Except.ok.injEq, Prod.mk.injEq] at h
        obtain ⟨hes, hrest⟩ := h
        subst hes hrest
        simp [readMapNoDupIndefF, if_pos hbrk]
      · simp only [mapEntriesIndefF, if_neg hbrk] at h
        simp only [readMapNoDupIndefF, if_neg hbrk]
        cases hsk : Skip (c :: r) with
        | error e => rw [hsk] at h; simp at h
        | ok rk =>
          rw [hsk] at h
          dsimp only at h ⊢
          cases hsk2 : Skip rk with
          | error e => rw [hsk2] at h; simp at h
          | ok r2 =>
            rw [hsk2] at h
            dsimp only at h ⊢
            cases hrec : mapEntriesIndefF fuel r2 with
            | error e => rw [hrec] at h; simp at h
            | ok pr =>
              obtain ⟨es2, rest2⟩ := pr
              rw [hrec] at h
              simp only [Except.ok.injEq, Prod.mk.injEq] at h
              obtain ⟨hes, hrest⟩ := h
              subst hrest
              rw [← hes]
              by_cases hmem : (c :: r).take ((c :: r).length - rk.length) ∈ seen
              · rw [if_pos hmem, if_neg ?_]
                simp only [List.map_cons, List.nodup_cons, List.mem_cons]
                rintro ⟨_, hall⟩
                exact (hall _ (Or.inl rfl)) hmem
              · rw [if_neg hmem, ih r2 es2 rest2 hrec _]
                apply if_congr ?_ rfl rfl
                simp only [List.map_cons]
                exact (seen_step_iff _ _ _ hmem).symm

theorem readMapNoDupDefF_spec : ∀ (sz : Nat) (p : List Nat)
    (es : List (List Nat × List Nat)) (rest : List Nat),
    mapEntriesDefF sz p = .ok (es, rest) →
    ∀ seen, readMapNoDupDefF seen sz p =
      if (es.map Prod.fst).Nodup ∧ (∀ k ∈ es.map Prod.fst, k ∉ seen) then .ok rest
      else .error .duplicateMapKey := by
  intro sz
  induction sz with
  | zero =>
    intro p es rest h seen
    simp only [mapEntriesDefF, Except.ok.injEq, Prod.mk.injEq] at h
    obtain ⟨hes, hrest⟩ := h
    subst hes hrest
    simp [readMapNoDupDefF]
  | succ sz ih =>
    intro p es rest h seen
    simp only [mapEntriesDefF] at h
    simp only [readMapNoDupDefF]
    cases hsk : Skip p with
    | error e => rw [hsk] at h; simp at h
    | ok rk =>
      rw [hsk] at h
      dsimp only at h ⊢
      cases hsk2 : Skip rk with
      | error e => rw [hsk2] at h; simp at h
      | ok r2 =>
        rw [hsk2] at h
        dsimp only at h ⊢
        cases hrec : mapEntriesDefF sz r2 with
        | error e => rw [hrec] at h; simp at h
        | ok pr =>
          obtain ⟨es2, rest2⟩ := pr
          rw [hrec] at h
          simp only [Except.ok.injEq, Prod.mk.injEq] at h
          obtain ⟨hes, hrest⟩ := h
          subst hrest
          rw [← hes]
          by_cases hmem : p.take (p.length - rk.length) ∈ seen
          · rw [if_pos hmem, if_neg ?_]
            simp only [List.map_cons, List.nodup_cons, List.mem_cons]
            rintro ⟨_, hall⟩
            exact (hall _ (Or.inl rfl)) hmem
          · rw [if_neg hmem, ih r2 es2 rest2 hrec _]
            apply if_congr ?_ rfl rfl
            simp only [List.map_cons]
            exact (seen_step_iff _ _ _ hmem).symm

/-- C6: on a definite- or indefinite-length map whose entries parse (the
`Skip`-based traversal `mapEntries` succeeds), `ReadMapNoDupBytes` returns
the duplicate-map-key error exactly when two entries have identical raw
encoded key bytes, and otherwise returns the remainder after the map; hex
`a2616101616102` ({"a":1,"a":2}) returns duplicate-map-key. -/
theorem C6_ReadMapNoDupBytes_spec :
    (∀ (b : List Nat) (es : List (List Nat × List Nat)) (rest : List Nat),
      mapEntries b = .ok (es, rest) →
      (((es.map Prod.fst).Nodup → ReadMapNoDupBytes b = .ok rest) ∧
       (¬ (es.map Prod.fst).Nodup → ReadMapNoDupBytes b = .error .duplicateMapKey))) ∧
    ReadMapNoDupBytes [0xa2, 0x61, 0x61, 0x01, 0x61, 0x61, 0x02]
      = .error .duplicateMapKey := by
  constructor
  · intro b es rest h
    match b with
    | [] => simp [mapEntries] at h
    | lead :: restb =>
      simp only [mapEntries] at h
      simp only [ReadMapNoDupBytes]
      by_cases hmaj : getMajorType lead ≠ majorTypeMap
      · rw [if_pos hmaj] at h
        simp at h
      · rw [if_neg hmaj] at h
        rw [if_neg hmaj]
        by_cases hind : getAddInfo lead = addInfoIndefinite
        · rw [if_pos hind] at h
          rw [if_pos hind, readMapNoDupIndefF_spec _ _ _ _ h []]
          constructor
          · intro hnd
            rw [if_pos ⟨hnd, by simp⟩]
          · intro hnd
            rw [if_neg (by simp [hnd])]
        · rw [if_neg hind] at h
          rw [if_neg hind]
          cases hh : ReadMapHeaderBytes (lead :: restb) with
          | error e => rw [hh] at h; simp at h
          | ok pr =>
            obtain ⟨sz, p⟩ := pr
            rw [hh] at h
            dsimp only at h ⊢
            rw [readMapNoDupDefF_spec _ _ _ _ h []]
            constructor
            · intro hnd
              rw [if_pos ⟨hnd, by simp⟩]
            · intro hnd
              rw [if_neg (by simp [hnd])]
  · simp +decide [ReadMapNoDupBytes, readMapNoDupDefF, ReadMapHeaderBytes, Skip, skipF,
      ReadStringZC, readUintCore, beUint, makeByte, majorTypeUint, majorTypeNegInt,
      majorTypeBytes, majorTypeText, majorTypeArray, majorTypeMap, majorTypeTag,
      majorTypeSimple, addInfoDirect, addInfoUint8, addInfoUint16, addInfoUint32,
      addInfoUint64, addInfoIndefinite, simpleFalse, simpleTrue, simpleNull, simpleUndefined,
      simpleFloat16, simpleFloat32, simpleFloat64, simpleBreak, recursionLimit]

theorem C6_ReadMapNoDupBytes_spec_witness :
    ReadMapNoDupBytes [0xa2, 0x61, 0x61, 0x01, 0x61, 0x62, 0x02] = .ok [] :=
  (C6_ReadMapNoDupBytes_spec.1 [0xa2, 0x61, 0x61, 0x01, 0x61, 0x62, 0x02]
    [([0x61, 0x61], [0x01]), ([0x61, 0x62], [0x02])] []
    (by simp +decide [mapEntries, mapEntriesDefF, ReadMapHeaderBytes, Skip, skipF,
      readUintCore, beUint, makeByte, majorTypeUint, majorTypeNegInt,
      majorTypeBytes, majorTypeText, majorTypeArray, majorTypeMap, majorTypeTag,
      majorTypeSimple, addInfoDirect, addInfoUint8, addInfoUint16, addInfoUint32,
      addInfoUint64, addInfoIndefinite, simpleFalse, simpleTrue, simpleNull, simpleUndefined,
      simpleFloat16, simpleFloat32, simpleFloat64, simpleBreak, recursionLimit])).1
    (by decide)

theorem f64ToF32Bits_nan (f : Nat) (h : isNaN64 f = true) :
    f64ToF32Bits f / 2 ^ 23 % 2 ^ 8 = 0xff ∧ f64ToF32Bits f % 2 ^ 23 ≠ 0 := by
  simp only [isNaN64, decide_eq_true_eq, ne_eq] at h
  obtain ⟨hexp, hmant⟩ := h
  unfold f64ToF32Bits
  rw [if_pos hexp, if_neg (by simpa using hmant)]
  have hs : f / 2 ^ 63 % 2 < 2 := Nat.mod_lt _ (by norm_num)
  have hm : f % 2 ^ 52 / 2 ^ 29 % 2 ^ 22 < 2 ^ 22 := Nat.mod_lt _ (by norm_num)
  omega

theorem float32ToFloat16Bits_nan (g : Nat)
    (hexp : g / 2 ^ 23 % 2 ^ 8 = 0xff) (hmant : g % 2 ^ 23 ≠ 0) :
    isNaN16 (float32ToFloat16Bits g) = true := by
  unfold float32ToFloat16Bits
  dsimp only
  rw [if_pos hexp, if_neg hmant]
  simp only [isNaN16, decide_eq_true_eq, ne_eq]
  have hs : g / 2 ^ 31 % 2 < 2 := Nat.mod_lt _ (by norm_num)
  have hm : g % 2 ^ 23 / 2 ^ 13 < 2 ^ 10 := by
    have : g % 2 ^ 23 < 2 ^ 23 := Nat.mod_lt _ (by norm_num)
    omega
  by_cases hz : (0x1f * 2 ^ 10 + g % 2 ^ 23 / 2 ^ 13) % 2 ^ 10 = 0
  · rw [if_pos hz]
    omega
  · rw [if_neg hz]
    omega

/-- C4: `AppendFloatCanonical` normalizes `-0.0` to `+0.0`, encodes every NaN
as an f16 NaN, and otherwise picks the narrowest of f16/f32/f64 whose value
survives the narrow-then-widen round trip (the source's
`float64(widen(narrow(f))) == f` test, `fvalEq` on exact values here);
`1.0` encodes as `f9 3c00` and `1.0/3.0` as an `fb`-led 9-byte item. -/
theorem C4_AppendFloatCanonical_spec :
    AppendFloatCanonical [] 0x8000000000000000 = AppendFloatCanonical [] 0 ∧
    (∀ f : Nat, isNaN64 f = true →
      AppendFloatCanonical [] f = AppendFloat16 [] (f64ToF32Bits f) ∧
      isNaN16 (float32ToFloat16Bits (f64ToF32Bits f)) = true) ∧
    (∀ f : Nat, f ≠ 0x8000000000000000 → isNaN64 f = false →
      (fvalEq (val32 (float16BitsToFloat32 (float32ToFloat16Bits (f64ToF32Bits f))))
          (val64 f) = true →
        AppendFloatCanonical [] f = AppendFloat16 [] (f64ToF32Bits f) ∧
        (AppendFloatCanonical [] f).length = 3) ∧
      (fvalEq (val32 (float16BitsToFloat32 (float32ToFloat16Bits (f64ToF32Bits f))))
          (val64 f) = false →
        fvalEq (val32 (f64ToF32Bits f)) (val64 f) = true →
        AppendFloatCanonical [] f = AppendFloat32 [] (f64ToF32Bits f) ∧
        (AppendFloatCanonical [] f).length = 5) ∧
      (fvalEq (val32 (float16BitsToFloat32 (float32ToFloat16Bits (f64ToF32Bits f))))
          (val64 f) = false →
        fvalEq (val32 (f64ToF32Bits f)) (val64 f) = false →
        AppendFloatCanonical [] f = AppendFloat64 [] f ∧
        (AppendFloatCanonical [] f).length = 9)) ∧
    AppendFloatCanonical [] 0x3FF0000000000000 = [0xf9, 0x3c, 0x00] ∧
    AppendFloatCanonical [] 0x3FE0000000000000 = [0xf9, 0x38, 0x00] ∧
    (AppendFloatCanonical [] 0x3FD5555555555555).headD 0 = 0xfb ∧
    (AppendFloatCanonical [] 0x3FD5555555555555).length = 9 := by
  refine ⟨by decide, ?_, ?_, by decide, by decide, by decide, by decide⟩
  · intro f h
    have hne : f ≠ 0x8000000000000000 := by
      intro he
      rw [he] at h
      simp [isNaN64] at h
    constructor
    · unfold AppendFloatCanonical
      dsimp only
      rw [if_neg hne, if_pos h]
    · obtain ⟨hexp, hmant⟩ := f64ToF32Bits_nan f h
      exact float32ToFloat16Bits_nan _ hexp hmant
  · intro f hne hnan
    refine ⟨fun h16 => ?_, fun h16 h32 => ?_, fun h16 h32 => ?_⟩
    · have he : AppendFloatCanonical [] f = AppendFloat16 [] (f64ToF32Bits f) := by
        unfold AppendFloatCanonical
        dsimp only
        rw [if_neg hne, if_neg (by simp [hnan]), if_pos h16]
      exact ⟨he, by simp [he, AppendFloat16, bePut_length]⟩
    · have he : AppendFloatCanonical [] f = AppendFloat32 [] (f64ToF32Bits f) := by
        unfold AppendFloatCanonical
        dsimp only
        rw [if_neg hne, if_neg (by simp [hnan]), if_neg (by simp [h16]), if_pos h32]
      exact ⟨he, by simp [he, AppendFloat32, bePut_length]⟩
    · have he : AppendFloatCanonical [] f = AppendFloat64 [] f := by
        unfold AppendFloatCanonical
        dsimp only
        rw [if_neg hne, if_neg (by simp [hnan]), if_neg (by simp [h16]), if_neg (by simp [h32])]
      exact ⟨he, by simp [he, AppendFloat64, bePut_length]⟩

set_option maxRecDepth 10000 in
theorem C4_AppendFloatCanonical_spec_witness :
    AppendFloatCanonical [] 0x7FF8000000000000 = AppendFloat16 [] (f64ToF32Bits 0x7FF8000000000000) ∧
    AppendFloatCanonical [] 0x3FF0000000000000 = AppendFloat16 [] (f64ToF32Bits 0x3FF0000000000000) ∧
    AppendFloatCanonical [] 0x3FD5555555555555 = AppendFloat64 [] 0x3FD5555555555555 :=
  ⟨(C4_AppendFloatCanonical_spec.2.1 0x7FF8000000000000 (by decide)).1,
   ((C4_AppendFloatCanonical_spec.2.2.1 0x3FF0000000000000 (by decide) (by decide)).1
     (by decide)).1,
   ((C4_AppendFloatCanonical_spec.2.2.1 0x3FD5555555555555 (by decide) (by decide)).2.2
     (by decide) (by decide)).1⟩

theorem radixCounts_spec (f : Nat → Nat) (cur : List Nat) (v : Nat) :
    radixCounts f cur v = (cur.filter (fun i => f i = v)).length := by
  suffices h : ∀ (g : Nat → Nat),
      (cur.foldl (fun cnts idx => fun w => if w = f idx then cnts w + 1 else cnts w) g) v
        = g v + (cur.filter (fun i => f i = v)).length by
    simpa [radixCounts] using h (fun _ => 0)
  induction cur with
  | nil => intro g; simp
  | cons x xs ih =>
    intro g
    simp only [List.foldl_cons, List.filter_cons]
    by_cases hx : f x = v
    · rw [ih]
      simp [hx]
      omega
    · rw [ih]
      have : ¬ (decide (f x = v) = true) := by simp [hx]
      simp [this, hx]
      omega

theorem radixOffsets_fold (counts : Nat → Nat) : ∀ (k : Nat),
    (List.range k).foldl
      (fun (st : (Nat → Nat) × Nat) i =>
        (fun v => if v = i then st.2 else st.1 v, st.2 + counts i))
      (counts, 0)
    = (fun v => if v < k then ((List.range v).map counts).sum else counts v,
       ((List.range k).map counts).sum) := by
  intro k
  induction k with
  | zero => simp
  | succ k ih =>
    rw [List.range_succ, List.foldl_append, ih]
    simp only [List.foldl_cons, List.foldl_nil, List.range_succ, List.map_append, List.sum_append]
    refine Prod.ext ?_ (by simp)
    funext v
    by_cases hv : v = k
    · subst hv
      simp
    · by_cases hlt : v < k + 1
      · have h2 : v < k := by omega
        simp [hv, hlt, h2]
      · have h2 : ¬ v < k := by omega
        simp [hv, hlt, h2]

theorem radixOffsets_spec (counts : Nat → Nat) (v : Nat) (hv : v < 256) :
    radixOffsets counts v = ((List.range v).map counts).sum := by
  unfold radixOffsets
  rw [radixOffsets_fold]
  simp [hv]

theorem sum_range_map_mono (g : Nat → Nat) {k m : Nat} (h : k ≤ m) :
    ((List.range k).map g).sum ≤ ((List.range m).map g).sum := by
  induction m with
  | zero =>
    have : k = 0 := by omega
    subst this
    exact le_refl _
  | succ m ih =>
    by_cases hk : k = m + 1
    · subst hk
      exact le_refl _
    · have h2 : k ≤ m := by omega
      calc ((List.range k).map g).sum ≤ ((List.range m).map g).sum := ih h2
        _ ≤ ((List.range (m + 1)).map g).sum := by
            rw [List.range_succ]
            simp

set_option maxRecDepth 4000 in
theorem count_indicator (a n : Nat) (h : a < n) :
    (((List.range n).map (fun v => if a = v then 1 else 0)).sum : Nat) = 1 := by
  induction n with
  | zero => omega
  | succ n ih =>
    rw [List.range_succ]
    by_cases ha : a = n
    · subst ha
      have : (((List.range a).map (fun v => if a = v then 1 else 0)).sum : Nat) = 0 := by
        apply List.sum_eq_zero
        intro x hx
        simp only [List.mem_map, List.mem_range] at hx
        obtain ⟨v, hv, hvx⟩ := hx
        have : ¬ a = v := by omega
        simp [this] at hvx
        omega
      simp [this]
    · have h2 : a < n := by omega
      simp [ih h2, ha]

theorem bucket_total (N : Nat) (f : Nat → Nat) (cur : List Nat) (hf : ∀ i ∈ cur, f i < N) :
    ((List.range N).map (fun v => (cur.filter (fun i => f i = v)).length)).sum
      = cur.length := by
  induction cur with
  | nil => simp
  | cons x xs ih =>
    have hfx : f x < N := hf x (List.mem_cons_self _ _)
    have ihh := ih (fun i hi => hf i (List.mem_cons_of_mem _ hi))
    have hsplit : ∀ v : Nat,
        (((x :: xs).filter (fun i => f i = v)).length)
        = (xs.filter (fun i => f i = v)).length + (if f x = v then 1 else 0) := by
      intro v
      by_cases hv : f x = v <;> simp [List.filter_cons, hv]
    calc ((List.range N).map fun v => ((x :: xs).filter (fun i => f i = v)).length).sum
        = ((List.range N).map fun v =>
            (xs.filter (fun i => f i = v)).length + (if f x = v then 1 else 0)).sum := by
          exact congrArg List.sum (List.map_congr_left (fun v _ => hsplit v))
      _ = ((List.range N).map fun v => (xs.filter (fun i => f i = v)).length).sum
          + ((List.range N).map fun v => (if f x = v then 1 else 0)).sum := by
          rw [← List.sum_map_add]
      _ = xs.length + 1 := by rw [ihh, count_indicator _ _ hfx]

theorem off_segment (f : Nat → Nat) (cur : List Nat) {v w : Nat} (hvw : v < w) (hw : w < 256) :
    radixOffsets (radixCounts f cur) v + (cur.filter (fun i => f i = v)).length
      ≤ radixOffsets (radixCounts f cur) w := by
  rw [radixOffsets_spec _ _ (by omega), radixOffsets_spec _ _ hw]
  have h1 : ((List.range (v + 1)).map (radixCounts f cur)).sum
      ≤ ((List.range w).map (radixCounts f cur)).sum := sum_range_map_mono _ (by omega)
  rw [List.range_succ] at h1
  simp only [List.map_append, List.sum_append, List.map_cons, List.map_nil, List.sum_cons,
    List.sum_nil] at h1
  rw [radixCounts_spec] at h1
  omega

theorem radixPlace_inv (f : Nat → Nat) (cur : List Nat) (hf : ∀ i ∈ cur, f i < 256) :
    ∀ (todo done : List Nat) (aux cnts : Nat → Nat),
      cur = done ++ todo →
      (∀ v, v < 256 →
        cnts v = radixOffsets (radixCounts f cur) v + (done.filter (fun i => f i = v)).length) →
      (∀ v k, v < 256 → k < (done.filter (fun i => f i = v)).length →
        aux (radixOffsets (radixCounts f cur) v + k) = (done.filter (fun i => f i = v)).getD k 0) →
      ∀ v k, v < 256 → k < (cur.filter (fun i => f i = v)).length →
        (todo.foldl
          (fun (st : (Nat → Nat) × (Nat → Nat)) idx =>
            (fun x => if x = st.2 (f idx) then idx else st.1 x,
             fun w => if w = f idx then st.2 (f idx) + 1 else st.2 w))
          (aux, cnts)).1 (radixOffsets (radixCounts f cur) v + k)
        = (cur.filter (fun i => f i = v)).getD k 0 := by
  intro todo
  induction todo with
  | nil =>
    intro done aux cnts hcur hA hB v k hv hk
    simp only [List.foldl_nil]
    rw [List.append_nil] at hcur
    subst hcur
    exact hB v k hv hk
  | cons idx todo ih =>
    intro done aux cnts hcur hA hB v k hv hk
    have hmemidx : idx ∈ cur := by
      rw [hcur]
      simp
    have hidx : f idx < 256 := hf idx hmemidx
    have hcur2 : cur = (done ++ [idx]) ++ todo := by
      rw [hcur]
      simp
    -- counts decompose over the prefix split
    have hsplit : ∀ w, (cur.filter (fun i => f i = w)).length
        = ((done ++ [idx]).filter (fun i => f i = w)).length
          + (todo.filter (fun i => f i = w)).length := by
      intro w
      rw [hcur2, List.filter_append, List.length_append]
    have hstep : ∀ w, ((done ++ [idx]).filter (fun i => f i = w)).length
        = (done.filter (fun i => f i = w)).length + (if f idx = w then 1 else 0) := by
      intro w
      rw [List.filter_append, List.length_append]
      by_cases hw : f idx = w <;> simp [hw]
    simp only [List.foldl_cons]
    refine ih (done ++ [idx]) _ _ hcur2 ?_ ?_ v k hv hk
    · -- counts invariant after one step
      intro w hw
      rw [hstep w]
      by_cases hbw : w = f idx
      · subst hbw
        rw [hA _ hw]
        split_ifs <;> omega
      · have hne2 : ¬ (f idx = w) := fun he => hbw he.symm
        rw [if_neg hbw, hA _ hw]
        split_ifs
        omega
    · -- aux invariant after one step
      intro w k2 hw hk2
      rw [hstep w] at hk2
      by_cases hbw : w = f idx
      · subst hbw
        simp at hk2
        have hfilidx : List.filter (fun i => decide (f i = f idx)) [idx] = [idx] := by simp
        rw [List.filter_append, hfilidx]
        rcases Nat.lt_or_ge k2 ((done.filter (fun i => f i = f idx)).length) with hlt | hge
        · have hne : radixOffsets (radixCounts f cur) (f idx) + k2 ≠ cnts (f idx) := by
            rw [hA _ hw]
            omega
          rw [if_neg hne, hB _ k2 hw hlt, List.getD_append _ _ _ _ hlt]
        · have hk2e : k2 = (done.filter (fun i => f i = f idx)).length := by omega
          subst hk2e
          rw [hA _ hw, if_pos rfl, List.getD_append_right _ _ _ _ (le_refl _)]
          simp
      · have hfne : ¬ (f idx = w) := fun he => hbw he.symm
        simp only [hfne, if_false, Nat.add_zero] at hk2
        have hfilidx : List.filter (fun i => decide (f i = w)) [idx] = [] := by simp [hfne]
        rw [List.filter_append, hfilidx, List.append_nil]
        have hwrite : radixOffsets (radixCounts f cur) w + k2 ≠ cnts (f idx) := by
          rw [hA _ hidx]
          have hdonelt : (done.filter (fun i => f i = f idx)).length
              < (cur.filter (fun i => f i = f idx)).length := by
            rw [hsplit (f idx), hstep (f idx)]
            have hone : (if f idx = f idx then (1:Nat) else 0) = 1 := if_pos rfl
            omega
          have hklt : k2 < (cur.filter (fun i => f i = w)).length := by
            rw [hsplit w, hstep w]
            have hone2 : (if f idx = w then (1:Nat) else 0) = 0 := if_neg hfne
            omega
          rcases Nat.lt_or_ge w (f idx) with hlt | hge
          · have := off_segment f cur hlt hidx
            omega
          · have hlt2 : f idx < w := by omega
            have := off_segment f cur hlt2 hw
            omega
        rw [if_neg hwrite]
        exact hB w k2 hw hk2

theorem pairwise_trivial {α : Type} (l : List α) : l.Pairwise (fun _ _ => True) := by
  induction l with
  | nil => constructor
  | cons x xs ih => exact List.Pairwise.cons (fun _ _ => trivial) ih

theorem getD_of_lt {α : Type} (l : List α) (n : Nat) (d : α) (h : n < l.length) :
    l.getD n d = l[n] := by
  simp [List.getElem?_eq_getElem h]

theorem getD_of_ge {α : Type} (l : List α) (n : Nat) (d : α) (h : l.length ≤ n) :
    l.getD n d = d := by
  simp [List.getD_eq_getElem?_getD, List.getElem?_eq_none h]

theorem flatMap_congr_mem {α β : Type} {l : List α} {f g : α → List β}
    (h : ∀ a ∈ l, f a = g a) : l.flatMap f = l.flatMap g := by
  induction l with
  | nil => rfl
  | cons x xs ih =>
    simp only [List.flatMap_cons]
    rw [h x (by simp), ih (fun a ha => h a (by simp [ha]))]

theorem map_range'_getD (aux : Nat → Nat) : ∀ (l : List Nat) (s : Nat),
    (∀ k, k < l.length → aux (s + k) = l.getD k 0) →
    (List.range' s l.length).map aux = l := by
  intro l
  induction l with
  | nil => intro s _; simp
  | cons x xs ih =>
    intro s h
    have hx : aux s = x := by
      have := h 0 (by simp)
      simpa using this
    have htail : (List.range' (s + 1) xs.length).map aux = xs := by
      apply ih
      intro k hk
      have := h (k + 1) (by simp; omega)
      rw [show s + 1 + k = s + (k + 1) by omega]
      simpa using this
    simp only [List.length_cons, List.range'_succ, List.map_cons, hx, htail]

theorem range_flatMap_range' (g : Nat → Nat) : ∀ (N : Nat),
    (List.range N).flatMap (fun v => List.range' (((List.range v).map g).sum) (g v))
      = List.range' 0 (((List.range N).map g).sum) := by
  intro N
  induction N with
  | zero => simp
  | succ N ih =>
    rw [List.range_succ, List.flatMap_append, ih]
    simp only [List.flatMap_cons, List.flatMap_nil, List.append_nil]
    have := List.range'_append_1 0 (((List.range N).map g).sum) (g N)
    simp only [Nat.zero_add] at this
    rw [this]
    simp [Nat.add_comm]

theorem countingPass_eq (keys : List (List Nat)) (pos : Nat) (cur : List Nat)
    (hf : ∀ i ∈ cur, byteAt keys i pos < 256) :
    countingPass keys pos cur
      = (List.range 256).flatMap (fun v => cur.filter (fun i => byteAt keys i pos = v)) := by
  have hinv := radixPlace_inv (fun i => byteAt keys i pos) cur hf cur []
    (fun _ => 0) (radixOffsets (radixCounts (fun i => byteAt keys i pos) cur))
    (by simp) (by intro v hv; simp) (by intro v k hv hk; simp at hk)
  have haux : ∀ v k, v < 256 → k < (cur.filter (fun i => byteAt keys i pos = v)).length →
      (radixPlace (fun i => byteAt keys i pos) cur
        (radixOffsets (radixCounts (fun i => byteAt keys i pos) cur))).1
        (radixOffsets (radixCounts (fun i => byteAt keys i pos) cur) v + k)
      = (cur.filter (fun i => byteAt keys i pos = v)).getD k 0 := hinv
  have hlen : cur.length
      = ((List.range 256).map
          (fun v => (cur.filter (fun i => byteAt keys i pos = v)).length)).sum :=
    (bucket_total 256 _ cur hf).symm
  simp only [countingPass]
  rw [hlen, List.range_eq_range',
    ← range_flatMap_range' (fun v => (cur.filter (fun i => byteAt keys i pos = v)).length) 256,
    List.map_flatMap]
  apply flatMap_congr_mem
  intro v hv
  have hv' : v < 256 := List.mem_range.mp hv
  have hoff : radixOffsets (radixCounts (fun i => byteAt keys i pos) cur) v
      = ((List.range v).map
          (fun w => (cur.filter (fun i => byteAt keys i pos = w)).length)).sum := by
    rw [radixOffsets_spec _ _ hv']
    exact congrArg List.sum
      (List.map_congr_left (fun w _ => radixCounts_spec (fun i => byteAt keys i pos) cur w))
  rw [← hoff]
  exact map_range'_getD _ _ _ (fun k hk => haux v k hv' hk)

theorem bytesLe_trans : ∀ (a b c : List Nat),
    bytesLe a b = true → bytesLe b c = true → bytesLe a c = true := by
  intro a
  induction a with
  | nil => intro b c _ _; rfl
  | cons x xs ih =>
    intro b c hab hbc
    cases b with
    | nil => simp [bytesLe] at hab
    | cons y ys =>
      cases c with
      | nil => simp [bytesLe] at hbc
      | cons z zs =>
        simp only [bytesLe] at hab hbc ⊢
        by_cases hxy : x < y
        · by_cases hyz : y < z
          · simp [show x < z by omega]
          · by_cases hzy : z < y
            · simp [hyz, hzy] at hbc
            · have : y = z := by omega
              subst this
              simp [hxy]
        · by_cases hyx : y < x
          · simp [hxy, hyx] at hab
          · have hxe : x = y := by omega
            subst hxe
            by_cases hyz : x < z
            · simp [hyz]
            · by_cases hzy : z < x
              · simp [hyz, hzy] at hbc
              · have : x = z := by omega
                subst this
                simp only [Nat.lt_irrefl, if_false]
                simp only [Nat.lt_irrefl, if_false] at hab hbc
                exact ih ys zs hab hbc

theorem bytesLe_total : ∀ (a b : List Nat), bytesLe a b || bytesLe b a := by
  intro a
  induction a with
  | nil => intro b; simp [bytesLe]
  | cons x xs ih =>
    intro b
    cases b with
    | nil => simp [bytesLe]
    | cons y ys =>
      simp only [bytesLe]
      by_cases hxy : x < y
      · simp [hxy]
      · by_cases hyx : y < x
        · simp [hxy, hyx]
        · have : x = y := by omega
          subst this
          simp only [Nat.lt_irrefl, if_false]
          exact ih ys

theorem bytesLe_cons_same (v : Nat) (a b : List Nat) :
    bytesLe (v :: a) (v :: b) = bytesLe a b := by
  simp [bytesLe]

theorem bytesLe_cons_lt {v w : Nat} (h : v < w) (a b : List Nat) :
    bytesLe (v :: a) (w :: b) = true := by
  simp [bytesLe, h]

theorem keyAt_bytes_lt {keys : List (List Nat)} (hb : ∀ kk ∈ keys, ∀ b ∈ kk, b < 256)
    (i : Nat) : ∀ b ∈ keyAt keys i, b < 256 := by
  intro b hbmem
  by_cases hi : i < keys.length
  · have : keyAt keys i ∈ keys := by
      rw [keyAt, getD_of_lt _ _ _ hi]
      exact List.getElem_mem hi
    exact hb _ this b hbmem
  · have : keyAt keys i = [] := getD_of_ge keys i [] (by omega)
    rw [this] at hbmem
    simp at hbmem

theorem byteAt_lt {keys : List (List Nat)} (hb : ∀ kk ∈ keys, ∀ b ∈ kk, b < 256)
    (i pos : Nat) : byteAt keys i pos < 256 := by
  rw [byteAt]
  by_cases hp : pos < (keyAt keys i).length
  · rw [getD_of_lt _ _ _ hp]
    exact keyAt_bytes_lt hb i _ (List.getElem_mem hp)
  · rw [getD_of_ge _ _ _ (by omega)]
    omega

theorem mem_countingPass {keys : List (List Nat)} (hb : ∀ kk ∈ keys, ∀ b ∈ kk, b < 256)
    (pos : Nat) (cur : List Nat) (i : Nat) :
    i ∈ countingPass keys pos cur ↔ i ∈ cur := by
  rw [countingPass_eq keys pos cur (fun j _ => byteAt_lt hb j pos)]
  simp only [List.mem_flatMap, List.mem_filter, List.mem_range]
  constructor
  · rintro ⟨v, _, hmem, _⟩
    exact hmem
  · intro hmem
    exact ⟨byteAt keys i pos, byteAt_lt hb i pos, hmem, by simp⟩

theorem keyAt_drop_cons {keys : List (List Nat)} {i p : Nat}
    (h : p < (keyAt keys i).length) :
    (keyAt keys i).drop p = byteAt keys i p :: (keyAt keys i).drop (p + 1) := by
  rw [byteAt, getD_of_lt _ _ _ h]
  exact List.drop_eq_getElem_cons h

theorem radixFrom_mem {keys : List (List Nat)}
    (hb : ∀ kk ∈ keys, ∀ b ∈ kk, b < 256) :
    ∀ (p : Nat) (cur : List Nat) (i : Nat), i ∈ radixFrom keys p cur ↔ i ∈ cur := by
  intro p
  induction p with
  | zero => intro cur i; simp [radixFrom]
  | succ p ih =>
    intro cur i
    rw [radixFrom, ih]
    exact mem_countingPass hb p cur i

theorem radixFrom_sorted {keys : List (List Nat)} {l : Nat}
    (hb : ∀ kk ∈ keys, ∀ b ∈ kk, b < 256) :
    ∀ (p : Nat) (cur : List Nat), p ≤ l →
      (∀ i ∈ cur, (keyAt keys i).length = l) →
      cur.Pairwise (fun i j =>
        bytesLe ((keyAt keys i).drop p) ((keyAt keys j).drop p) = true) →
      (radixFrom keys p cur).Pairwise
        (fun i j => bytesLe (keyAt keys i) (keyAt keys j) = true) := by
  intro p
  induction p with
  | zero =>
    intro cur _ _ hpair
    simpa [radixFrom] using hpair
  | succ p ih =>
    intro cur hpl hlen hpair
    rw [radixFrom]
    apply ih (countingPass keys p cur) (by omega)
    · intro i hi
      exact hlen i ((mem_countingPass hb p cur i).mp hi)
    · rw [countingPass_eq keys p cur (fun j _ => byteAt_lt hb j p)]
      rw [List.pairwise_flatMap]
      constructor
      · intro v _
        have hfil : (cur.filter (fun i => byteAt keys i p = v)).Pairwise
            (fun i j =>
              bytesLe ((keyAt keys i).drop (p + 1)) ((keyAt keys j).drop (p + 1)) = true) :=
          hpair.filter _
        apply hfil.imp_of_mem
        intro a b ha hb2 hrel
        have hamem := List.mem_filter.mp ha
        have hbmem := List.mem_filter.mp hb2
        have hav : byteAt keys a p = v := by simpa using hamem.2
        have hbv : byteAt keys b p = v := by simpa using hbmem.2
        have hla : p < (keyAt keys a).length := by rw [hlen a hamem.1]; omega
        have hlb : p < (keyAt keys b).length := by rw [hlen b hbmem.1]; omega
        rw [keyAt_drop_cons hla, keyAt_drop_cons hlb, hav, hbv, bytesLe_cons_same]
        exact hrel
      · refine (List.pairwise_lt_range 256).imp ?_
        intro v w hvw
        intro x hx y hy
        have hxmem := List.mem_filter.mp hx
        have hymem := List.mem_filter.mp hy
        have hxv : byteAt keys x p = v := by simpa using hxmem.2
        have hyw : byteAt keys y p = w := by simpa using hymem.2
        have hlx : p < (keyAt keys x).length := by rw [hlen x hxmem.1]; omega
        have hly : p < (keyAt keys y).length := by rw [hlen y hymem.1]; omega
        rw [keyAt_drop_cons hlx, keyAt_drop_cons hly, hxv, hyw]
        exact bytesLe_cons_lt hvw _ _

theorem sortGroup_sorted {keys : List (List Nat)} {l : Nat}
    (hb : ∀ kk ∈ keys, ∀ b ∈ kk, b < 256) (grp : List Nat)
    (hlen : ∀ i ∈ grp, (keyAt keys i).length = l) :
    (sortGroup keys l grp).Pairwise
      (fun i j => bytesLe (keyAt keys i) (keyAt keys j) = true) := by
  rw [sortGroup]
  split_ifs with h1 h2
  · cases grp with
    | nil => constructor
    | cons x xs =>
      have hxs : xs = [] := by
        cases xs with
        | nil => rfl
        | cons y ys => simp at h1
      subst hxs
      simp
  · exact @List.sorted_mergeSort _ (fun i j => bytesLe (keyAt keys i) (keyAt keys j))
      (fun a b c hab hbc => bytesLe_trans _ _ _ hab hbc)
      (fun a b => bytesLe_total _ _) grp
  · apply radixFrom_sorted hb l grp (le_refl l) hlen
    apply (pairwise_trivial grp).imp_of_mem
    intro a b ha hb2 _
    have hla : (keyAt keys a).drop l = [] :=
      List.drop_eq_nil_of_le (by rw [hlen a ha])
    have hlb : (keyAt keys b).drop l = [] :=
      List.drop_eq_nil_of_le (by rw [hlen b hb2])
    rw [hla, hlb]
    rfl

theorem mem_sortGroup {keys : List (List Nat)} {l : Nat}
    (hb : ∀ kk ∈ keys, ∀ b ∈ kk, b < 256) (grp : List Nat) (i : Nat) :
    i ∈ sortGroup keys l grp ↔ i ∈ grp := by
  rw [sortGroup]
  split_ifs with h1 h2
  · exact Iff.rfl
  · exact List.mem_mergeSort
  · exact radixFrom_mem hb l grp i

theorem lensSorted_lt (keys : List (List Nat)) :
    (lensSorted keys).Pairwise (· < ·) := by
  have hle : (lensSorted keys).Pairwise (· ≤ ·) := by
    have := @List.sorted_mergeSort _ (fun a b => decide (a ≤ b))
      (fun a b c hab hbc => by
        simp only [decide_eq_true_eq] at hab hbc ⊢
        omega)
      (fun a b => by
        simp only [Bool.or_eq_true, decide_eq_true_eq]
        omega)
      ((keys.map List.length).dedup)
    apply this.imp
    intro a b h
    simpa using h
  have hnd : (lensSorted keys).Nodup :=
    ((List.mergeSort_perm _ _).nodup_iff).mpr (List.nodup_dedup _)
  exact List.Sorted.lt_of_le hle hnd

theorem mem_lenGroup {keys : List (List Nat)} {l i : Nat} :
    i ∈ lenGroup keys l ↔ i < keys.length ∧ (keyAt keys i).length = l := by
  rw [lenGroup]
  simp [List.mem_filter]

theorem deterministicOrder_pairwise (keys : List (List Nat))
    (hb : ∀ kk ∈ keys, ∀ b ∈ kk, b < 256) :
    (deterministicOrder keys).Pairwise
      (fun i j => lenLexLe (keyAt keys i) (keyAt keys j) = true) := by
  rw [deterministicOrder, List.pairwise_flatMap]
  constructor
  · intro l _
    have hlen : ∀ i ∈ lenGroup keys l, (keyAt keys i).length = l :=
      fun i hi => (mem_lenGroup.mp hi).2
    apply (sortGroup_sorted hb (lenGroup keys l) hlen).imp_of_mem
    intro a b ha hb2 hrel
    have hla : (keyAt keys a).length = l := hlen a ((mem_sortGroup hb _ _).mp ha)
    have hlb : (keyAt keys b).length = l := hlen b ((mem_sortGroup hb _ _).mp hb2)
    simp [lenLexLe, hla, hlb, hrel]
  · refine (lensSorted_lt keys).imp ?_
    intro l1 l2 h12
    intro x hx y hy
    have hlx : (keyAt keys x).length = l1 :=
      (mem_lenGroup.mp ((mem_sortGroup hb _ _).mp hx)).2
    have hly : (keyAt keys y).length = l2 :=
      (mem_lenGroup.mp ((mem_sortGroup hb _ _).mp hy)).2
    simp [lenLexLe, hlx, hly, h12]

/-- C5: the entries written by `AppendRawMapDeterministic` (and the generic
`AppendMapDeterministic`, which sorts the same way over its encoded keys)
appear in the order `deterministicOrder`, and that order lists the encoded
key bytes of any two distinct entries in ascending
length-first-then-bytewise-lexicographic (`lenLexLe`) order; concretely,
the map `{"b": 1, "a": 2}` encodes to hex `a2616102616201` with key `"a"`
before key `"b"`. -/
theorem C5_deterministic_map_key_order {K V : Type} [Inhabited V]
    (pairs : List RawPair) (m : List (K × V)) (encKey : List Nat → K → List Nat)
    (hpb : ∀ p ∈ pairs, ∀ b ∈ p.Key, b < 256)
    (hmb : ∀ kv ∈ m, ∀ b ∈ encKey [] kv.1, b < 256) :
    (∀ b0, pairs ≠ [] → AppendRawMapDeterministic b0 pairs
      = AppendMapHeader b0 (pairs.length % 2 ^ 32) ++
        (deterministicOrder (pairs.map RawPair.Key)).flatMap
          (fun i => (pairs.getD i ⟨[], []⟩).Key ++ (pairs.getD i ⟨[], []⟩).Value))
    ∧ ((deterministicOrder (pairs.map RawPair.Key)).map
        (keyAt (pairs.map RawPair.Key))).Pairwise (fun a b => lenLexLe a b = true)
    ∧ ((deterministicOrder ((m.map (fun kv => (encKey [] kv.1, kv.2))).map Prod.fst)).map
        (keyAt ((m.map (fun kv => (encKey [] kv.1, kv.2))).map Prod.fst))).Pairwise
        (fun a b => lenLexLe a b = true)
    ∧ AppendRawMapDeterministic []
        [⟨[0x61, 0x62], [0x01]⟩, ⟨[0x61, 0x61], [0x02]⟩]
      = [0xa2, 0x61, 0x61, 0x02, 0x61, 0x62, 0x01] := by
  refine ⟨?_, ?_, ?_, ?_⟩
  · intro b0 hne
    rw [AppendRawMapDeterministic, if_neg (by simpa using hne)]
  · apply (List.pairwise_map).mpr
    apply deterministicOrder_pairwise
    intro kk hkk b hbmem
    rw [List.mem_map] at hkk
    obtain ⟨p, hp, hpk⟩ := hkk
    exact hpb p hp b (hpk ▸ hbmem)
  · apply (List.pairwise_map).mpr
    apply deterministicOrder_pairwise
    intro kk hkk b hbmem
    rw [List.map_map, List.mem_map] at hkk
    obtain ⟨kv, hkv, hkk2⟩ := hkk
    have : encKey [] kv.1 = kk := by simpa using hkk2
    exact hmb kv hkv b (this ▸ hbmem)
  · simp +decide [AppendRawMapDeterministic, deterministicOrder, lensSorted, lenGroup,
      sortGroup, List.mergeSort, keyAt, byteAt, bytesLe, AppendMapHeader, appendUintCore,
      makeByte, majorTypeMap, addInfoDirect, bePut, List.dedup,
      List.range_succ, List.filter_cons, List.filter_nil]

/-- Witness for C5 at the concrete pair list of the spec example. -/
theorem C5_deterministic_map_key_order_witness :
    AppendRawMapDeterministic []
        [⟨[0x61, 0x62], [0x01]⟩, ⟨[0x61, 0x61], [0x02]⟩]
      = [0xa2, 0x61, 0x61, 0x02, 0x61, 0x62, 0x01] :=
  (@C5_deterministic_map_key_order Nat Nat inferInstance
    [⟨[0x61, 0x62], [0x01]⟩, ⟨[0x61, 0x61], [0x02]⟩]
    [(1, 2)] (fun b _ => b ++ [0x61]) (by decide) (by decide)).2.2.2

/-- C8 (corrected): `toJSON` unwraps tags 0, 1, 2, 3, and 32 into plain
JSON strings — the bignum tags 2 and 3 are rendered as bare
`json.Marshal(z.String())` decimal strings, not wrapper objects, contrary
to the spec's "exactly 0, 1, 32" — while tags 4, 5, 21, 22, 23, 24, 33,
34, 35, 36, 37 and 55799 become their `$`-prefixed wrapper objects and any
other tag becomes the generic `\x7b"$tag":N,"$":v\x7d` object. Each
conjunct evaluates the tag arm of `toJSON` on a concrete encoding of that
tag; the final conjunct shows concretely that the tag-2 bignum
`c2 41 01` renders as the bare string `"1"` (first output byte `"`
rather than `\x7b`). -/
theorem C8_toJSON_tag_rendering (L : GoLib)
    (recur : List Nat → Except Err (List Nat × List Nat)) :
    (∀ t, L.parseRFC3339 [] = some t →
      toJSONTag L recur [0xc0, 0x60] = .ok (L.marshalStr (L.fmtTime t), []))
    ∧ toJSONTag L recur [0xc1, 0x00] = .ok (L.marshalStr (L.fmtTime (0, 0)), [])
    ∧ toJSONTag L recur [0xc2, 0x41, 0x01] = .ok (L.marshalStr [0x31], [])
    ∧ toJSONTag L recur [0xc3, 0x41, 0x00] = .ok (L.marshalStr [0x2d, 0x31], [])
    ∧ toJSONTag L recur [0xd8, 0x20, 0x61, 0x61] = .ok (L.marshalStr [0x61], [])
    ∧ toJSONTag L recur [0xc4, 0x82, 0x00, 0x00]
        = .ok (lit "\x7b\"$decimal\":[" ++ [0x30] ++ lit "," ++
            L.marshalStr [0x30] ++ lit "]\x7d", [])
    ∧ toJSONTag L recur [0xc5, 0x82, 0x00, 0x00]
        = .ok (lit "\x7b\"$bigfloat\":[" ++ [0x30] ++ lit "," ++
            L.marshalStr [0x30] ++ lit "]\x7d", [])
    ∧ toJSONTag L recur [0xd5, 0x41, 0x01]
        = .ok (lit "\x7b\"$base64url\":\"" ++ L.b64url [0x01] ++ lit "\"\x7d", [])
    ∧ toJSONTag L recur [0xd6, 0x41, 0x01]
        = .ok (lit "\x7b\"$base64\":\"" ++ L.b64std [0x01] ++ lit "\"\x7d", [])
    ∧ toJSONTag L recur [0xd7, 0x41, 0xab]
        = .ok (lit "\x7b\"$base16\":\"" ++ [0x61, 0x62] ++ lit "\"\x7d", [])
    ∧ toJSONTag L recur [0xd8, 0x18, 0x41, 0x01]
        = .ok (lit "\x7b\"$cbor\":\"" ++ L.b64std [0x01] ++ lit "\"\x7d", [])
    ∧ toJSONTag L recur [0xd8, 0x21, 0x61, 0x61]
        = .ok (lit "\x7b\"$base64urlstr\":" ++ L.marshalStr [0x61] ++ lit "\x7d", [])
    ∧ toJSONTag L recur [0xd8, 0x22, 0x61, 0x61]
        = .ok (lit "\x7b\"$base64str\":" ++ L.marshalStr [0x61] ++ lit "\x7d", [])
    ∧ toJSONTag L recur [0xd8, 0x23, 0x61, 0x61]
        = .ok (lit "\x7b\"$regex\":" ++ L.marshalStr [0x61] ++ lit "\x7d", [])
    ∧ toJSONTag L recur [0xd8, 0x24, 0x61, 0x61]
        = .ok (lit "\x7b\"$mime\":" ++ L.marshalStr [0x61] ++ lit "\x7d", [])
    ∧ toJSONTag L recur [0xd8, 0x25, 0x50, 0, 0, 0, 0, 0, 0, 0, 0,
          0, 0, 0, 0, 0, 0, 0, 0]
        = .ok (lit "\x7b\"$uuid\":\"00000000-0000-0000-0000-000000000000\"\x7d", [])
    ∧ toJSONTag L recur [0xd9, 0xd9, 0xf7, 0x00]
        = .ok (lit "\x7b\"$selfdescribe\":true\x7d", [0x00])
    ∧ (∀ vout rest2, recur [0x00] = .ok (vout, rest2) →
        toJSONTag L recur [0xd8, 0x64, 0x00]
          = .ok (lit "\x7b\"$tag\":" ++ [0x31, 0x30, 0x30] ++ lit ",\"$\":" ++ vout ++
              lit "\x7d", rest2))
    ∧ toJSONTag stubGoLib (fun _ => .error .shortBytes) [0xc2, 0x41, 0x01]
        = .ok ([0x22, 0x31, 0x22], []) := by
  refine ⟨?_, ?_, ?_, ?_, ?_, ?_, ?_, ?_, ?_, ?_, ?_, ?_, ?_, ?_, ?_, ?_, ?_, ?_, ?_⟩
  · intro t hp
    have hs : ReadRFC3339TimeBytes L [0xc0, 0x60] = .ok (t, []) := by
      simp +decide [ReadRFC3339TimeBytes, ReadTagBytes, readUintCore,
        show ReadStringBytes [0x60] = Except.ok ([], []) from rfl, hp,
        majorTypeTag, tagDateTimeString, addInfoDirect, addInfoUint8, addInfoUint16,
        addInfoUint32, addInfoUint64, addInfoIndefinite]
    simp +decide [toJSONTag, ReadTagBytes, readUintCore, hs,
      majorTypeTag, tagDateTimeString, addInfoDirect, addInfoUint8, addInfoUint16,
      addInfoUint32, addInfoUint64, addInfoIndefinite]
  · rfl
  · rfl
  · rfl
  · rfl
  · rfl
  · rfl
  · rfl
  · rfl
  · rfl
  · rfl
  · rfl
  · rfl
  · rfl
  · rfl
  · rfl
  · rfl
  · intro vout rest2 hr
    simp +decide [toJSONTag, ReadTagBytes, readUintCore, hr,
      majorTypeTag, tagDateTimeString, tagEpochDateTime, tagPosBignum, tagNegBignum,
      tagDecimalFrac, tagBigfloat, tagBase64URL, tagBase64, tagBase16, tagCBOR, tagURI,
      tagBase64URLString, tagBase64String, tagRegexp, tagMIME, tagSelfDescribeCBOR,
      addInfoDirect, addInfoUint8, addInfoUint16, addInfoUint32, addInfoUint64,
      addInfoIndefinite, makeByte, natDecBytes, lit]
    rfl
  · rfl

/-- Witness for C8 at the concrete stub library: the tag-0 time string,
the generic tag 100, and the tag-2 bignum byte outputs. -/
theorem C8_toJSON_tag_rendering_witness :
    toJSONTag stubGoLib (fun bs => .ok ([0x30], bs)) [0xc0, 0x60]
      = .ok (stubGoLib.marshalStr (stubGoLib.fmtTime (0, 0)), [])
    ∧ toJSONTag stubGoLib (fun bs => .ok ([0x30], bs)) [0xd8, 0x64, 0x00]
      = .ok (lit "\x7b\"$tag\":" ++ [0x31, 0x30, 0x30] ++ lit ",\"$\":" ++ [0x30] ++
          lit "\x7d", [0x00])
    ∧ toJSONTag stubGoLib (fun _ => .error .shortBytes) [0xc2, 0x41, 0x01]
      = .ok ([0x22, 0x31, 0x22], []) :=
  ⟨(C8_toJSON_tag_rendering stubGoLib (fun bs => .ok ([0x30], bs))).1 (0, 0) rfl,
   (C8_toJSON_tag_rendering stubGoLib
      (fun bs => .ok ([0x30], bs))).2.2.2.2.2.2.2.2.2.2.2.2.2.2.2.2.2.1
      [0x30] [0x00] rfl,
   (C8_toJSON_tag_rendering stubGoLib
      (fun _ => .error .shortBytes)).2.2.2.2.2.2.2.2.2.2.2.2.2.2.2.2.2.2⟩

/-- C9 (corrected): `tryWrapper` recognizes a JSON object as a wrapper
whenever ANY key of the closed wrapper set is present (checked in source
order `$tag`, `$rfc3339`, `$epoch`, `$decimal`, `$bigfloat`, `$base64url`,
`$base64`, `$base16`, `$cbor`, `$uri`, `$base64urlstr`, `$base64str`,
`$regex`, `$mime`, `$uuid`, `$selfdescribe`) — there is no single-key
requirement, so an object holding a wrapper key alongside additional keys
is still converted to the tag (the extra keys are silently dropped),
contrary to the spec; `jsonToCBOR` emits a plain CBOR map only when no
wrapper key is present, and a `$tag` key without the companion `$` is an
error rather than a plain map. -/
theorem C9_tryWrapper_recognition (L : FromLib) :
    (∀ fuel b m, (tryWrapperF L fuel b m).isSome = wrapperKeyPresent m)
    ∧ (∀ fuel b fields r, tryWrapperF L fuel b fields = some r →
        jsonToCBORF L (fuel + 1) b (.jobj fields) = r)
    ∧ (∀ fuel b fields, tryWrapperF L fuel b fields = none →
        jsonToCBORF L (fuel + 1) b (.jobj fields)
          = fields.foldl
              (fun acc kv =>
                match acc with
                | .error er => .error er
                | .ok bb => jsonToCBORF L fuel (AppendString bb kv.1) kv.2)
              (.ok (AppendMapHeader b (fields.length % 2 ^ 32))))
    ∧ jsonToCBORF stubFromLib 3 [] (.jobj [(lit "$uri", .jstr [0x61]), (lit "x", .jnull)])
        = .ok [0xd8, 0x20, 0x61, 0x61]
    ∧ jsonToCBORF stubFromLib 3 [] (.jobj [(lit "$tag", .jnum [0x31])])
        = .error (.other "cbor: $tag wrapper missing $ field")
    ∧ jsonToCBORF stubFromLib 3 [] (.jobj [(lit "$tag", .jnum [0x31]), (lit "$", .jnull)])
        = .ok [0xc1, 0xf6]
    ∧ jsonToCBORF stubFromLib 2 [] (.jobj [(lit "a", .jnull)])
        = .ok [0xa1, 0x61, 0x61, 0xf6] := by
  refine ⟨?_, ?_, ?_, ?_, ?_, ?_, ?_⟩
  · intro fuel b m
    simp only [tryWrapperF]
    cases h1 : jlookup m (lit "$tag")
    case some => simp [wrapperKeyPresent, wrapperKeys, h1]
    case none => ?_
    cases h2 : jlookup m (lit "$rfc3339")
    case some => simp [wrapperKeyPresent, wrapperKeys, h1, h2]
    case none => ?_
    cases h3 : jlookup m (lit "$epoch")
    case some => simp [wrapperKeyPresent, wrapperKeys, h1, h2, h3]
    case none => ?_
    cases h4 : jlookup m (lit "$decimal")
    case some => simp [wrapperKeyPresent, wrapperKeys, h1, h2, h3, h4]
    case none => ?_
    cases h5 : jlookup m (lit "$bigfloat")
    case some => simp [wrapperKeyPresent, wrapperKeys, h1, h2, h3, h4, h5]
    case none => ?_
    cases h6 : jlookup m (lit "$base64url")
    case some => simp [wrapperKeyPresent, wrapperKeys, h1, h2, h3, h4, h5, h6]
    case none => ?_
    cases h7 : jlookup m (lit "$base64")
    case some => simp [wrapperKeyPresent, wrapperKeys, h1, h2, h3, h4, h5, h6, h7]
    case none => ?_
    cases h8 : jlookup m (lit "$base16")
    case some => simp [wrapperKeyPresent, wrapperKeys, h1, h2, h3, h4, h5, h6, h7, h8]
    case none => ?_
    cases h9 : jlookup m (lit "$cbor")
    case some => simp [wrapperKeyPresent, wrapperKeys, h1, h2, h3, h4, h5, h6, h7, h8, h9]
    case none => ?_
    cases h10 : jlookup m (lit "$uri")
    case some => simp [wrapperKeyPresent, wrapperKeys, h1, h2, h3, h4, h5, h6, h7, h8, h9, h10]
    case none => ?_
    cases h11 : jlookup m (lit "$base64urlstr")
    case some => simp [wrapperKeyPresent, wrapperKeys, h1, h2, h3, h4, h5, h6, h7, h8, h9, h10, h11]
    case none => ?_
    cases h12 : jlookup m (lit "$base64str")
    case some => simp [wrapperKeyPresent, wrapperKeys, h1, h2, h3, h4, h5, h6, h7, h8, h9, h10, h11, h12]
    case none => ?_
    cases h13 : jlookup m (lit "$regex")
    case some => simp [wrapperKeyPresent, wrapperKeys, h1, h2, h3, h4, h5, h6, h7, h8, h9, h10, h11, h12, h13]
    case none => ?_
    cases h14 : jlookup m (lit "$mime")
    case some => simp [wrapperKeyPresent, wrapperKeys, h1, h2, h3, h4, h5, h6, h7, h8, h9, h10, h11, h12, h13, h14]
    case none => ?_
    cases h15 : jlookup m (lit "$uuid")
    case some => simp [wrapperKeyPresent, wrapperKeys, h1, h2, h3, h4, h5, h6, h7, h8, h9, h10, h11, h12, h13, h14, h15]
    case none => ?_
    cases h16 : jlookup m (lit "$selfdescribe")
    case some => simp [wrapperKeyPresent, wrapperKeys, h1, h2, h3, h4, h5, h6, h7, h8, h9, h10, h11, h12, h13, h14, h15, h16]
    case none => ?_
    simp [wrapperKeyPresent, wrapperKeys, h1, h2, h3, h4, h5, h6, h7, h8, h9, h10, h11, h12, h13, h14, h15, h16]
  · intro fuel b fields r h
    simp only [jsonToCBORF, h]
  · intro fuel b fields h
    simp only [jsonToCBORF, h]
  · simp +decide [jsonToCBORF, tryWrapperF, jlookup, lit, stubFromLib, asString,
      AppendURI, AppendString, AppendTag, appendUintCore, makeByte, majorTypeTag,
      majorTypeText, tagURI, addInfoDirect, addInfoUint8, bePut, beUint,
      tagDateTimeString, tagEpochDateTime]
  · simp +decide [jsonToCBORF, tryWrapperF, jlookup, lit, stubFromLib]
  · simp +decide [jsonToCBORF, tryWrapperF, jlookup, lit, stubFromLib, numToUint64,
      containsDotEE, decStrToInt, decNat, decDigit, AppendTagged, AppendTag,
      AppendNil, appendUintCore, makeByte, majorTypeTag, majorTypeSimple, simpleNull,
      addInfoDirect]
  · simp +decide [jsonToCBORF, tryWrapperF, jlookup, lit, stubFromLib, AppendMapHeader,
      AppendString, AppendNil, appendUintCore, makeByte, majorTypeMap, majorTypeText,
      majorTypeSimple, simpleNull, addInfoDirect]

/-- Witness for C9: the recognition characterization at a plain object,
and the wrapper dispatch on `$uri` objects (with and without an extra
key). -/
theorem C9_tryWrapper_recognition_witness :
    (tryWrapperF stubFromLib 1 [] [(lit "a", .jnull)]).isSome
      = wrapperKeyPresent [(lit "a", .jnull)]
    ∧ jsonToCBORF stubFromLib 3 [] (.jobj [(lit "$uri", .jstr [0x61]), (lit "x", .jnull)])
      = .ok [0xd8, 0x20, 0x61, 0x61]
    ∧ jsonToCBORF stubFromLib 1 [] (.jobj [(lit "$uri", .jstr [0x61])])
      = .ok (AppendURI [] [0x61]) :=
  ⟨(C9_tryWrapper_recognition stubFromLib).1 1 [] [(lit "a", .jnull)],
   (C9_tryWrapper_recognition stubFromLib).2.2.2.1,
   (C9_tryWrapper_recognition stubFromLib).2.1 0 [] [(lit "$uri", .jstr [0x61])]
     (.ok (AppendURI [] [0x61]))
     (by simp +decide [tryWrapperF, jlookup, lit, stubFromLib, asString])⟩

/-- Counterexample to the original C8 wording: the tag-2 bignum
`c2 41 01` renders as the bare JSON string `"1"` (first byte `0x22`,
not an object brace `0x7b`), so tag 2 is unwrapped. -/
theorem C8_tag2_bignum_renders_bare_string :
    toJSONTag stubGoLib (fun _ => .error .shortBytes) [0xc2, 0x41, 0x01]
      = .ok ([0x22, 0x31, 0x22], [])
    ∧ toJSONTag stubGoLib (fun _ => .error .shortBytes) [0xc3, 0x41, 0x00]
      = .ok ([0x22, 0x2d, 0x31, 0x22], []) :=
  ⟨rfl, rfl⟩

/-- Counterexample to the original C9 wording: the object
`\x7b"$uri":"a","x":null\x7d` holds a wrapper key plus an extra key, yet
`jsonToCBOR` emits `tag(32)"a"` (bytes `d8 20 61 61`, not a 2-entry map
`a2 ...`), and `\x7b"$tag":1\x7d` without `$` errors instead of encoding
as a plain map. -/
theorem C9_wrapper_fires_despite_extra_keys :
    jsonToCBORF stubFromLib 3 [] (.jobj [(lit "$uri", .jstr [0x61]), (lit "x", .jnull)])
      = .ok [0xd8, 0x20, 0x61, 0x61]
    ∧ jsonToCBORF stubFromLib 3 [] (.jobj [(lit "$tag", .jnum [0x31])])
      = .error (.other "cbor: $tag wrapper missing $ field") := by
  constructor
  · simp +decide [jsonToCBORF, tryWrapperF, jlookup, lit, stubFromLib, asString,
      AppendURI, AppendString, AppendTag, appendUintCore, makeByte, majorTypeTag,
      majorTypeText, tagURI, addInfoDirect, addInfoUint8, bePut, beUint,
      tagDateTimeString, tagEpochDateTime]
  · simp +decide [jsonToCBORF, tryWrapperF, jlookup, lit, stubFromLib]
